import Mathlib

/-!
# chatterino2: the Twitch PubSub multiplexer

A shallow embedding of `src/providers/twitch/pubsub.cpp`: the per-connection
`detail::PubSubClient` (listener bookkeeping, heartbeat, egress) and the pool
`PubSub` (client table, pending requests), followed by theorems about them.

Conventions of the embedding

* C++ objects are values; a method is a function from the old state to the new
  one.  Everything a method touches outside its object (the file-static
  `sentMessages`, the websocket transport, the timer service, the signals) is
  collected in `World` and passed explicitly.
* A method returns `none` when the process stops inside it: a failed `assert`
  in a build with assertions, or a rapidjson accessor used on a value of the
  wrong kind.
* Values the code obtains from outside (`CreateUUID()`, the error code of the
  transport) are arguments of the function that obtains them.
* `std::string` and `QString` are `String`; counters are `Nat` (the counts that
  occur are far below the range of the C++ integer types involved).
-/

namespace chatterino

/-! ## rapidjson values -/

/-- A rapidjson value (`rapidjson::Value` / `rapidjson::Document`). An object keeps
its members in insertion order. -/
inductive Json where
  | null : Json
  | bool (b : Bool) : Json
  | num (n : Int) : Json
  | str (s : String) : Json
  | arr (xs : List Json) : Json
  | obj (ms : List (String × Json)) : Json
  deriving Repr

namespace Json

/-- The first member called `key` in a member list (rapidjson `FindMember`). -/
def findMember (key : String) : List (String × Json) → Option Json
  | [] => none
  | (k, v) :: ms => if k = key then some v else findMember key ms

/-- The accessor `value[key]`: defined on an object that has the member. -/
def member? (j : Json) (key : String) : Option Json :=
  match j with
  | obj ms => findMember key ms
  | _ => none

/-- The accessor `GetArray()` (and the domain of `Size()`): defined on arrays only. -/
def getArray? : Json → Option (List Json)
  | arr xs => some xs
  | _ => none

/-- The accessor `GetString()`: defined on strings only. -/
def getString? : Json → Option String
  | str s => some s
  | _ => none

/-- Replace the first member called `key`, or add the member at the end. -/
def setMember (key : String) (value : Json) : List (String × Json) → List (String × Json)
  | [] => [(key, value)]
  | (k, v) :: ms => if k = key then (k, value) :: ms else (k, v) :: setMember key value ms

/-- The text of a string with a backslash put before each double quote and each
backslash. -/
def escape : List Char → List Char
  | [] => []
  | c :: cs =>
    if c = Char.ofNat 34 ∨ c = Char.ofNat 92 then Char.ofNat 92 :: c :: escape cs
    else c :: escape cs

/-- Double-quoted text, as it stands in a compact JSON frame. -/
def quote (s : String) : String := "\"" ++ String.mk (escape s.data) ++ "\""

/-- The query `HasMember(key)`: defined on objects only. -/
def hasMember? (j : Json) (key : String) : Option Bool :=
  match j with
  | obj ms => some (findMember key ms).isSome
  | _ => none

/-- The query `IsObject()`. -/
def isObject : Json → Bool
  | obj _ => true
  | _ => false

/-- The query `IsArray()`. -/
def isArray : Json → Bool
  | arr _ => true
  | _ => false

/-- The query `IsString()`. -/
def isString : Json → Bool
  | str _ => true
  | _ => false

mutual
/-- Compact JSON text of a value, members and elements in order. -/
def render : Json → String
  | null => "null"
  | bool b => if b then "true" else "false"
  | num n => toString n
  | str s => quote s
  | arr xs => "[" ++ renderElems xs ++ "]"
  | obj ms => "\x7b" ++ renderMembers ms ++ "\x7d"
/-- Comma-separated elements of an array. -/
def renderElems : List Json → String
  | [] => ""
  | [x] => x.render
  | x :: y :: xs => x.render ++ "," ++ renderElems (y :: xs)
/-- Comma-separated members of an object. -/
def renderMembers : List (String × Json) → String
  | [] => ""
  | [(k, v)] => quote k ++ ":" ++ v.render
  | (k, v) :: m :: ms => quote k ++ ":" ++ v.render ++ "," ++ renderMembers (m :: ms)
end

end Json

/-! ## The actions of `pubsubactions.hpp` -/

/-- Modelled from the spec: `ActionUser` of `pubsubactions.hpp` is not among the
sources: a user reference, "name + id". Both start empty. -/
structure ActionUser where
  id : String := ""
  name : String := ""
  deriving DecidableEq, Repr

/-- Modelled from the spec: `ClearChatAction` ("ChatCleared"); every action "carries
a `roomID`". -/
structure ClearChatAction where
  roomID : String
  deriving DecidableEq, Repr

/-- The modes of `ModeChangedAction::Mode` that the handlers assign. -/
inductive ModeChangedAction.Mode where
  | Slow : ModeChangedAction.Mode
  | R9K : ModeChangedAction.Mode
  | SubscribersOnly : ModeChangedAction.Mode
  | EmoteOnly : ModeChangedAction.Mode
  deriving DecidableEq, Repr

/-- The states of `ModeChangedAction::State`. -/
inductive ModeChangedAction.State where
  | Off : ModeChangedAction.State
  | On : ModeChangedAction.State
  deriving DecidableEq, Repr

/-- Modelled from the spec: `ModeChangedAction`
("ModeChanged{mode, state, duration?}"). Every handler assigns `mode` and `state`
before it publishes; `duration` is `none` until a handler assigns it. -/
structure ModeChangedAction where
  roomID : String
  mode : ModeChangedAction.Mode
  state : ModeChangedAction.State
  duration : Option Nat := none
  deriving DecidableEq, Repr

/-- Modelled from the spec: `ModerationStateAction`
("ModerationStateChanged{target, modded: bool}"). Every handler assigns `modded`
before it publishes. -/
structure ModerationStateAction where
  roomID : String
  target : ActionUser := {}
  modded : Bool
  deriving DecidableEq, Repr

/-- Modelled from the spec: `BanAction`
("UserBanned{source, target, duration?, reason?}"): the users and the reason start
empty, and `duration` is `none` until a handler assigns it. -/
structure BanAction where
  roomID : String
  source : ActionUser := {}
  target : ActionUser := {}
  reason : String := ""
  duration : Option Nat := none
  deriving DecidableEq, Repr

/-- The values `UnbanAction::Banned` and `UnbanAction::TimedOut`. -/
inductive UnbanAction.PreviousState where
  | Banned : UnbanAction.PreviousState
  | TimedOut : UnbanAction.PreviousState
  deriving DecidableEq, Repr

/-- Modelled from the spec: `UnbanAction`
("UserUnbanned{source, target, previousState}"). Every handler assigns
`previousState` before it publishes. -/
structure UnbanAction where
  roomID : String
  source : ActionUser := {}
  target : ActionUser := {}
  previousState : UnbanAction.PreviousState
  deriving DecidableEq, Repr

/-! ## What the sources take from headers and libraries outside them -/

/-- The parts of the build that `pubsub.cpp` uses but does not define. -/
structure Env where
  /-- Whether `assert` is compiled out (`NDEBUG`). -/
  NDEBUG : Bool
  /-- The macro `MAX_PUBSUB_LISTENS` of `pubsub.hpp`: topics one connection may hold. -/
  MAX_PUBSUB_LISTENS : Nat
  /-- The serializer `rj::stringify` of `util/rapidjson-helpers.hpp`. -/
  stringify : Json → String
  /-- The parser `rapidjson::Document::Parse`: the document, or `none` when the
  parse result reports an error. -/
  parse : String → Option Json
  /-- The conversion `QString::toUInt(&ok, 10)`: the number it returns. -/
  toUInt : String → Nat
  /-- The conversion `QString::toUInt(&ok, 10)`: what it leaves in `ok`, that is
  whether the text was converted. No code of `pubsub.cpp` reads it. -/
  toUIntOk : String → Bool
  /-- The helper `getCreatedByUser(data, user)` of `pubsubhelpers.hpp`: the user it
  leaves in its second argument. -/
  getCreatedByUser : Json → ActionUser → ActionUser
  /-- The helper `getTargetUser(data, user)` of `pubsubhelpers.hpp`: the user it
  leaves in its second argument. -/
  getTargetUser : Json → ActionUser → ActionUser

/-- The C `assert`: the process stops when the condition fails, unless assertions
are compiled out. -/
def assert (env : Env) (cond : Bool) : Option Unit :=
  if env.NDEBUG || cond then some () else none

namespace rj

/-- Modelled from the spec: `rj::set` of `util/rapidjson-helpers.hpp` is not among
the sources. It asserts that its target is an object and sets the member `key` of
it to `value` ("generates a fresh nonce" for the request, whose frame then reads
`"nonce":"<uuid>"`). -/
def set (obj : Json) (key : String) (value : Json) : Option Json :=
  match obj with
  | .obj ms => some (.obj (Json.setMember key value ms))
  | _ => none

/-- Modelled from the spec: the two-argument `rj::getSafe(value, out)` of
`util/rapidjson-helpers.hpp`: succeeds exactly on a string and yields it. -/
def getSafeValue (value : Json) : Option String :=
  value.getString?

/-- Modelled from the spec: the three-argument `rj::getSafe(obj, key, out)` of
`util/rapidjson-helpers.hpp`: succeeds exactly when `obj` is an object with a
string member `key` ("missing required string member"), and yields it. -/
def getSafe (obj : Json) (key : String) : Option String :=
  match obj.member? key with
  | some v => getSafeValue v
  | none => none

end rj

/-- Modelled from the spec: `getArgs` of `pubsubhelpers.hpp` is not among the sources.
It "extracts a positional `args` array (required to exist and be an array)" and
throws the `std::runtime_error` that the handlers catch otherwise; the exception is
the `none` here. -/
def getArgs (data : Json) : Option (List Json) :=
  match data.member? "args" with
  | some (.arr args) => some args
  | _ => none

/-- Modelled from the spec: `createUnlistenMessage` of `pubsubhelpers.hpp` is not
among the sources. Per the wire protocol the frame is
`{"type":"UNLISTEN","nonce":"<uuid>","data":{"topics":[...]}}`; the nonce is added
by the caller. -/
def createUnlistenMessage (topics : List String) : Json :=
  .obj [("type", .str "UNLISTEN"), ("data", .obj [("topics", .arr (topics.map Json.str))])]

/-- Modelled from the spec: `createListenMessage` of `pubsubhelpers.hpp` is not among
the sources. Per the wire protocol the frame is
`{"type":"LISTEN","nonce":"<uuid>","data":{"topics":[...],"auth_token":"<token>"}}`;
the nonce is added by the client that accepts the request. The account is
represented by its token. -/
def createListenMessage (topics : List String) (authToken : String) : Json :=
  .obj [("type", .str "LISTEN"),
        ("data", .obj [("topics", .arr (topics.map Json.str)), ("auth_token", .str authToken)])]

/-! ## The world around a client -/

/-- A connection handle (`WebsocketHandle`). The client table is keyed by handles;
a handle is represented by its rank in the order of that table. -/
abbrev WebsocketHandle := Nat

/-- The two callbacks `PubSubClient::ping` hands to `runAfter`. -/
inductive TimerCallback where
  /-- The 15 second callback: look at `awaitingPong`. -/
  | pongCheck : TimerCallback
  /-- The 5 minute callback: `ping()` again. -/
  | pingAgain : TimerCallback
  deriving DecidableEq, Repr

/-- One `runAfter` call: the client the callback holds, the delay, the callback. -/
structure Timer where
  self : WebsocketHandle
  seconds : Nat
  callback : TimerCallback
  deriving DecidableEq, Repr

/-- A signal invocation. -/
inductive Event where
  /-- The expression `this->connected.invoke()`. -/
  | connected : Event
  /-- The expression `this->sig.whisper.received.invoke(msg)`. -/
  | whisperReceived (msg : Json) : Event
  /-- The expression `this->sig.whisper.sent.invoke(msg)`. -/
  | whisperSent (msg : Json) : Event
  /-- The expression `this->sig.moderation.chatCleared.invoke(action)`. -/
  | chatCleared (action : ClearChatAction) : Event
  /-- The expression `this->sig.moderation.modeChanged.invoke(action)`. -/
  | modeChanged (action : ModeChangedAction) : Event
  /-- The expression `this->sig.moderation.moderationStateChanged.invoke(action)`. -/
  | moderationStateChanged (action : ModerationStateAction) : Event
  /-- The expression `this->sig.moderation.userBanned.invoke(action)`. -/
  | userBanned (action : BanAction) : Event
  /-- The expression `this->sig.moderation.userUnbanned.invoke(action)`. -/
  | userUnbanned (action : UnbanAction) : Event
  deriving Repr

/-- Everything outside the objects that the code reads or writes. -/
structure World where
  /-- The file-static `std::map<std::string, std::string> sentMessages`, as its
  entries; the code never iterates it, so the order of entries is not observable. -/
  sentMessages : List (String × String)
  /-- The calls of `websocketClient.send(handle, payload, text, ec)`, oldest first. -/
  sent : List (WebsocketHandle × String)
  /-- The calls of `runAfter`, oldest first. -/
  timers : List Timer
  /-- The signal invocations, oldest first. -/
  events : List Event
  deriving Repr

/-- The invocation of a signal. -/
def World.invoke (w : World) (e : Event) : World :=
  { w with events := w.events ++ [e] }

/-- The assignment `m[key] = value` on a `std::map`: overwrite or insert. -/
def mapAssign (key value : String) : List (String × String) → List (String × String)
  | [] => [(key, value)]
  | (k, v) :: m => if k = key then (k, value) :: m else (k, v) :: mapAssign key value m

/-- The lookup of a key in a `std::map` given by its entries. -/
def mapFind (key : String) : List (String × String) → Option String
  | [] => none
  | (k, v) :: m => if k = key then some v else mapFind key m

/-- The call `std::string::find(needle)`: position of the first occurrence, if any. -/
def stdFind : List Char → List Char → Option Nat
  | [], needle => if needle.isPrefixOf [] then some 0 else none
  | c :: s, needle =>
    if needle.isPrefixOf (c :: s) then some 0 else (stdFind s needle).map (· + 1)

/-- Whether `topic` starts with `pre` (`QString::startsWith`). -/
def startsWith (pre : String) (topic : String) : Bool := pre.data.isPrefixOf topic.data

/-- The parts of a text between the occurrences of `sep`, empty parts included. -/
def splitChars (sep : Char) : List Char → List (List Char)
  | [] => [[]]
  | c :: cs =>
    if c = sep then [] :: splitChars sep cs
    else
      match splitChars sep cs with
      | [] => [[c]]
      | part :: parts => (c :: part) :: parts

/-- The call `QString::split(".")`. -/
def splitDot (s : String) : List String :=
  (splitChars (Char.ofNat 46) s.data).map String.mk

/-! ## `detail::PubSubClient` -/

/-- The struct `Listener`; the code builds it as `Listener{topic, false, false, false}`
and reads only `topic`. -/
structure Listener where
  topic : String
  flag1 : Bool
  flag2 : Bool
  flag3 : Bool
  deriving DecidableEq, Repr

/-- The state of one `detail::PubSubClient`: the members `pubsub.cpp` reads and
writes (the reference to the shared transport is part of `World`). -/
structure PubSubClient where
  handle : WebsocketHandle
  numListens : Nat
  listeners : List Listener
  started : Bool
  awaitingPong : Bool
  deriving DecidableEq, Repr

/-- The payload `pingPayload`. -/
def pingPayload : String := "\x7b\"type\":\"PING\"\x7d"

namespace PubSubClient

/-- The constructor `PubSubClient(_websocketClient, _handle)`. It initialises the
handle; the other members get the initial values of their declarations in
`pubsub.hpp`, which is not among the sources: no listeners, `numListens = 0`, not
started (`start` asserts it on the new client), not awaiting a pong. -/
def new (handle : WebsocketHandle) : PubSubClient :=
  { handle := handle, numListens := 0, listeners := [], started := false,
    awaitingPong := false }

/-- The method `send`: hands the payload to the transport; `ec` tells whether the
transport reported an error, and the result is `false` exactly then. -/
def send (c : PubSubClient) (w : World) (payload : String) (ec : Bool) : Bool × World :=
  (!ec, { w with sent := w.sent ++ [(c.handle, payload)] })

/-- The method `ping`. -/
def ping (env : Env) (ec : Bool) (c : PubSubClient) (w : World) :
    Option (PubSubClient × World) := do
  assert env c.started
  let r := c.send w pingPayload ec
  if !r.1 then
    return (c, r.2)
  let c1 := { c with awaitingPong := true }
  let w1 := { r.2 with timers := r.2.timers ++ [Timer.mk c.handle 15 .pongCheck] }
  let w2 := { w1 with timers := w1.timers ++ [Timer.mk c.handle 300 .pingAgain] }
  return (c1, w2)

/-- The method `start`. -/
def start (env : Env) (ec : Bool) (c : PubSubClient) (w : World) :
    Option (PubSubClient × World) := do
  assert env (!c.started)
  let c1 := { c with started := true }
  c1.ping env ec w

/-- The method `stop`. -/
def stop (env : Env) (c : PubSubClient) : Option PubSubClient := do
  assert env c.started
  return { c with started := false }

/-- The method `handlePong`. -/
def handlePong (env : Env) (c : PubSubClient) : Option PubSubClient := do
  assert env c.awaitingPong
  return { c with awaitingPong := false }

/-- The first lambda of `ping`, which the timer runs after 15 seconds; `self` is
the client the lambda holds. Its only statement besides the tests is a log line. -/
def pongCheckCallback (self : PubSubClient) (w : World) : PubSubClient × World :=
  if !self.started then
    (self, w)
  else if self.awaitingPong then
    (self, w)
  else
    (self, w)

/-- The second lambda of `ping`, which the timer runs after 5 minutes. -/
def pingAgainCallback (env : Env) (ec : Bool) (self : PubSubClient) (w : World) :
    Option (PubSubClient × World) :=
  if !self.started then
    some (self, w)
  else
    self.ping env ec w

/-- The timer service runs a callback on the client it holds. -/
def fire (env : Env) (ec : Bool) (callback : TimerCallback) (self : PubSubClient)
    (w : World) : Option (PubSubClient × World) :=
  match callback with
  | .pongCheck => some (self.pongCheckCallback w)
  | .pingAgain => self.pingAgainCallback env ec w

/-- The loop of `isListeningToTopic` over the listeners. -/
def isListeningToTopicLoop (payload : String) : List Listener → Bool
  | [] => false
  | listener :: rest =>
    if listener.topic = payload then true else isListeningToTopicLoop payload rest

/-- The method `isListeningToTopic`. -/
def isListeningToTopic (c : PubSubClient) (payload : String) : Bool :=
  isListeningToTopicLoop payload c.listeners

/-- What `listen` leaves behind: its result, the client, the world and the request
document, which it receives by reference. -/
structure ListenResult where
  ok : Bool
  client : PubSubClient
  world : World
  message : Json

/-- The loop of `listen` over the requested topics: one `emplace_back` of
`Listener{topic.GetString(), false, false, false}` per topic. -/
def listenLoop : List Json → List Listener → Option (List Listener)
  | [], listeners => some listeners
  | topic :: rest, listeners => do
    let name ← topic.getString?
    listenLoop rest (listeners ++ [Listener.mk name false false false])

/-- The method `listen`; `uuid` is what `CreateUUID()` returns. -/
def listen (env : Env) (uuid : String) (ec : Bool) (c : PubSubClient) (w : World)
    (message : Json) : Option ListenResult := do
  let topics ← (← (← message.member? "data").member? "topics").getArray?
  let numRequestedListens := topics.length
  if c.numListens + numRequestedListens > env.MAX_PUBSUB_LISTENS then
    return { ok := false, client := c, world := w, message := message }
  let c1 := { c with numListens := c.numListens + numRequestedListens }
  let c2 := { c1 with listeners := ← listenLoop topics c1.listeners }
  let message1 ← rj.set message "nonce" (.str uuid)
  let payload := env.stringify message1
  let w1 := { w with sentMessages := mapAssign uuid payload w.sentMessages }
  let r := c2.send w1 payload ec
  return { ok := true, client := c2, world := r.2, message := message1 }

/-- The loop of `unlistenPrefix`: the topics collected and the listeners kept. -/
def unlistenLoop (pre : String) : List Listener → List String × List Listener
  | [] => ([], [])
  | listener :: rest =>
    let r := unlistenLoop pre rest
    if stdFind listener.topic.data pre.data = some 0 then
      (listener.topic :: r.1, r.2)
    else
      (r.1, listener :: r.2)

/-- The method `unlistenPrefix`. It draws two UUIDs: `uuid`, the key under which
the payload is stored, and `nonce`, the one written into the message. -/
def unlistenPrefix (env : Env) (uuid nonce : String) (ec : Bool) (c : PubSubClient)
    (w : World) (pre : String) : Option (PubSubClient × World) := do
  let r := unlistenLoop pre c.listeners
  let topics := r.1
  let c1 := { c with listeners := r.2 }
  if topics.isEmpty then
    return (c1, w)
  let message := createUnlistenMessage topics
  let message1 ← rj.set message "nonce" (.str nonce)
  let payload := env.stringify message1
  let w1 := { w with sentMessages := mapAssign uuid payload w.sentMessages }
  let s := c1.send w1 payload ec
  return (c1, s.2)

end PubSubClient

/-! ## `PubSub`: the pool -/

/-- Modelled from the spec: the members of `PubSub` are declared in `pubsub.hpp`,
which is not among the sources; these are the two that the methods below use.
`clients` is the client table, "keyed by connection handle": `pubsub.cpp` uses it as
a map (`emplace(hdl, client)`, `find(hdl)`, `erase`, iteration over key/value pairs
`p.second`), so it is kept as its entries in iteration order, which for a map is
ascending key order. `requests` is the FIFO of pending requests (`emplace_back`). -/
structure PubSub where
  clients : List (WebsocketHandle × PubSubClient)
  requests : List Json

/-- The call `clients.emplace(hdl, client)` on a map: the entry is put at the
place of its key, and nothing happens when the key is already present. -/
def mapEmplace (hdl : WebsocketHandle) (client : PubSubClient) :
    List (WebsocketHandle × PubSubClient) → List (WebsocketHandle × PubSubClient)
  | [] => [(hdl, client)]
  | (h, c) :: rest =>
    if hdl < h then (hdl, client) :: (h, c) :: rest
    else if hdl = h then (h, c) :: rest
    else (h, c) :: mapEmplace hdl client rest

namespace PubSub

/-- The constructor, as far as the state is concerned: no client, no request. -/
def new : PubSub := { clients := [], requests := [] }

/-- What `tryListen` leaves behind: its result, the client table, the world and
the request document. -/
structure TryListenResult where
  ok : Bool
  clients : List (WebsocketHandle × PubSubClient)
  world : World
  message : Json

/-- The loop of `tryListen` over the client table. -/
def tryListenLoop (env : Env) (uuid : String) (ec : Bool) :
    List (WebsocketHandle × PubSubClient) → World → Json → Option TryListenResult
  | [], w, msg => some { ok := false, clients := [], world := w, message := msg }
  | (h, client) :: rest, w, msg => do
    let r ← client.listen env uuid ec w msg
    if r.ok then
      return { ok := true, clients := (h, r.client) :: rest, world := r.world,
               message := r.message }
    let t ← tryListenLoop env uuid ec rest r.world r.message
    return { t with clients := (h, r.client) :: t.clients }

/-- The method `tryListen`. -/
def tryListen (env : Env) (uuid : String) (ec : Bool) (p : PubSub) (w : World)
    (msg : Json) : Option TryListenResult :=
  tryListenLoop env uuid ec p.clients w msg

/-- The method `listen`. -/
def listen (env : Env) (uuid : String) (ec : Bool) (p : PubSub) (w : World)
    (msg : Json) : Option (PubSub × World) := do
  let t ← p.tryListen env uuid ec w msg
  if t.ok then
    return ({ p with clients := t.clients }, t.world)
  return ({ clients := t.clients, requests := p.requests ++ [t.message] }, t.world)

/-- The loop of `isListeningToTopic` over the client table. -/
def isListeningToTopicLoop (topic : String) : List (WebsocketHandle × PubSubClient) → Bool
  | [] => false
  | (_, client) :: rest =>
    if client.isListeningToTopic topic then true else isListeningToTopicLoop topic rest

/-- The method `isListeningToTopic`. -/
def isListeningToTopic (p : PubSub) (topic : String) : Bool :=
  isListeningToTopicLoop topic p.clients

/-- The loop of `unlistenAllModerationActions`; the client under handle `h` draws
the UUIDs `uuids h` and meets the transport error code `ecs h`. -/
def unlistenAllLoop (env : Env) (uuids : WebsocketHandle → String × String)
    (ecs : WebsocketHandle → Bool) :
    List (WebsocketHandle × PubSubClient) → World →
      Option (List (WebsocketHandle × PubSubClient) × World)
  | [], w => some ([], w)
  | (h, client) :: rest, w => do
    let r ← client.unlistenPrefix env (uuids h).1 (uuids h).2 (ecs h) w
      "chat_moderator_actions."
    let t ← unlistenAllLoop env uuids ecs rest r.2
    return ((h, r.1) :: t.1, t.2)

/-- The method `unlistenAllModerationActions`. -/
def unlistenAllModerationActions (env : Env) (uuids : WebsocketHandle → String × String)
    (ecs : WebsocketHandle → Bool) (p : PubSub) (w : World) : Option (PubSub × World) := do
  let t ← unlistenAllLoop env uuids ecs p.clients w
  return ({ p with clients := t.1 }, t.2)

/-- The type of the entries of `moderationActionHandlers`: a handler receives the
payload `data` and the room and invokes signals. -/
abbrev ModerationActionHandler := Json → String → World → Option World

namespace handlers

/-- The handler of `clear`. -/
def clear : ModerationActionHandler := fun _data roomID w =>
  let action : ClearChatAction := { roomID := roomID }
  some (w.invoke (.chatCleared action))

/-- The handler of `slowoff`. -/
def slowoff : ModerationActionHandler := fun _data roomID w =>
  let action : ModeChangedAction := { roomID := roomID, mode := .Slow, state := .Off }
  some (w.invoke (.modeChanged action))

/-- The handler of `slow`. -/
def slow (env : Env) : ModerationActionHandler := fun data roomID w => do
  let action : ModeChangedAction := { roomID := roomID, mode := .Slow, state := .On }
  if !(← data.hasMember? "args") then
    return w
  let args ← data.member? "args"
  if !args.isArray then
    return w
  let elems ← args.getArray?
  if elems.length = 0 then
    return w
  let durationArg ← elems[0]?
  if !durationArg.isString then
    return w
  let action := { action with duration := some (env.toUInt (← durationArg.getString?)) }
  return w.invoke (.modeChanged action)

/-- The handler of `r9kbetaoff`. -/
def r9kbetaoff : ModerationActionHandler := fun _data roomID w =>
  let action : ModeChangedAction := { roomID := roomID, mode := .R9K, state := .Off }
  some (w.invoke (.modeChanged action))

/-- The handler of `r9kbeta`. -/
def r9kbeta : ModerationActionHandler := fun _data roomID w =>
  let action : ModeChangedAction := { roomID := roomID, mode := .R9K, state := .On }
  some (w.invoke (.modeChanged action))

/-- The handler of `subscribersoff`. -/
def subscribersoff : ModerationActionHandler := fun _data roomID w =>
  let action : ModeChangedAction :=
    { roomID := roomID, mode := .SubscribersOnly, state := .Off }
  some (w.invoke (.modeChanged action))

/-- The handler of `subscribers`. -/
def subscribers : ModerationActionHandler := fun _data roomID w =>
  let action : ModeChangedAction :=
    { roomID := roomID, mode := .SubscribersOnly, state := .On }
  some (w.invoke (.modeChanged action))

/-- The handler of `emoteonlyoff`. -/
def emoteonlyoff : ModerationActionHandler := fun _data roomID w =>
  let action : ModeChangedAction := { roomID := roomID, mode := .EmoteOnly, state := .Off }
  some (w.invoke (.modeChanged action))

/-- The handler of `emoteonly`. -/
def emoteonly : ModerationActionHandler := fun _data roomID w =>
  let action : ModeChangedAction := { roomID := roomID, mode := .EmoteOnly, state := .On }
  some (w.invoke (.modeChanged action))

/-- The handler of `unmod`. The `catch` block only logs, so after an exception of
`getArgs` control goes on behind the `try` statement. -/
def unmod (env : Env) : ModerationActionHandler := fun data roomID w => do
  let action : ModerationStateAction := { roomID := roomID, modded := false }
  let action := { action with target := env.getTargetUser data action.target }
  match getArgs data with
  | some args =>
    if args.length < 1 then
      return w
    match rj.getSafeValue (← args[0]?) with
    | none => return w
    | some name =>
      let action := { action with target := { action.target with name := name } }
      let action := { action with modded := false }
      return w.invoke (.moderationStateChanged action)
  | none =>
    let action := { action with modded := false }
    return w.invoke (.moderationStateChanged action)

/-- The handler of `mod`. The `catch` block only logs, so after an exception of
`getArgs` control goes on behind the `try` statement. -/
def mod (env : Env) : ModerationActionHandler := fun data roomID w => do
  let action : ModerationStateAction := { roomID := roomID, modded := true }
  let action := { action with target := env.getTargetUser data action.target }
  match getArgs data with
  | some args =>
    if args.length < 1 then
      return w
    match rj.getSafeValue (← args[0]?) with
    | none => return w
    | some name =>
      let action := { action with target := { action.target with name := name } }
      let action := { action with modded := true }
      return w.invoke (.moderationStateChanged action)
  | none =>
    let action := { action with modded := true }
    return w.invoke (.moderationStateChanged action)

/-- The handler of `timeout`. The signal is invoked inside the `try` block. -/
def timeout (env : Env) : ModerationActionHandler := fun data roomID w => do
  let action : BanAction := { roomID := roomID }
  let action := { action with source := env.getCreatedByUser data action.source }
  let action := { action with target := env.getTargetUser data action.target }
  match getArgs data with
  | none => return w
  | some args =>
    if args.length < 2 then
      return w
    match rj.getSafeValue (← args[0]?) with
    | none => return w
    | some name =>
      let action := { action with target := { action.target with name := name } }
      match rj.getSafeValue (← args[1]?) with
      | none => return w
      | some durationString =>
        let action := { action with duration := some (env.toUInt durationString) }
        if args.length ≥ 3 then
          match rj.getSafeValue (← args[2]?) with
          | none => return w
          | some reason =>
            let action := { action with reason := reason }
            return w.invoke (.userBanned action)
        else
          return w.invoke (.userBanned action)

/-- The handler of `ban`. The signal is invoked inside the `try` block. -/
def ban (env : Env) : ModerationActionHandler := fun data roomID w => do
  let action : BanAction := { roomID := roomID }
  let action := { action with source := env.getCreatedByUser data action.source }
  let action := { action with target := env.getTargetUser data action.target }
  match getArgs data with
  | none => return w
  | some args =>
    if args.length < 1 then
      return w
    match rj.getSafeValue (← args[0]?) with
    | none => return w
    | some name =>
      let action := { action with target := { action.target with name := name } }
      if args.length ≥ 2 then
        match rj.getSafeValue (← args[1]?) with
        | none => return w
        | some reason =>
          let action := { action with reason := reason }
          return w.invoke (.userBanned action)
      else
        return w.invoke (.userBanned action)

/-- The handler of `unban`. The signal is invoked inside the `try` block. -/
def unban (env : Env) : ModerationActionHandler := fun data roomID w => do
  let action : UnbanAction := { roomID := roomID, previousState := .Banned }
  let action := { action with source := env.getCreatedByUser data action.source }
  let action := { action with target := env.getTargetUser data action.target }
  match getArgs data with
  | none => return w
  | some args =>
    if args.length < 1 then
      return w
    match rj.getSafeValue (← args[0]?) with
    | none => return w
    | some name =>
      let action := { action with target := { action.target with name := name } }
      return w.invoke (.userUnbanned action)

/-- The handler of `untimeout`. The signal is invoked inside the `try` block. -/
def untimeout (env : Env) : ModerationActionHandler := fun data roomID w => do
  let action : UnbanAction := { roomID := roomID, previousState := .TimedOut }
  let action := { action with source := env.getCreatedByUser data action.source }
  let action := { action with target := env.getTargetUser data action.target }
  match getArgs data with
  | none => return w
  | some args =>
    if args.length < 1 then
      return w
    match rj.getSafeValue (← args[0]?) with
    | none => return w
    | some name =>
      let action := { action with target := { action.target with name := name } }
      return w.invoke (.userUnbanned action)

end handlers

/-- The member `moderationActionHandlers` as the constructor fills it, in the
order of the assignments. -/
def moderationActionHandlers (env : Env) : List (String × ModerationActionHandler) :=
  [("clear", handlers.clear),
   ("slowoff", handlers.slowoff),
   ("slow", handlers.slow env),
   ("r9kbetaoff", handlers.r9kbetaoff),
   ("r9kbeta", handlers.r9kbeta),
   ("subscribersoff", handlers.subscribersoff),
   ("subscribers", handlers.subscribers),
   ("emoteonlyoff", handlers.emoteonlyoff),
   ("emoteonly", handlers.emoteonly),
   ("unmod", handlers.unmod env),
   ("mod", handlers.mod env),
   ("timeout", handlers.timeout env),
   ("ban", handlers.ban env),
   ("unban", handlers.unban env),
   ("untimeout", handlers.untimeout env)]

/-- The call `moderationActionHandlers.find(name)`. -/
def findHandler (name : String) :
    List (String × ModerationActionHandler) → Option ModerationActionHandler
  | [] => none
  | (k, handler) :: rest => if k = name then some handler else findHandler name rest

/-- The method `handleListenResponse`: it reads `error` and `nonce` and writes log
lines. -/
def handleListenResponse (msg : Json) (w : World) : World :=
  match rj.getSafe msg "error" with
  | some error =>
    let _nonce := rj.getSafe msg "nonce"
    if error.isEmpty then
      w
    else
      w
  | none => w

/-- The method `handleMessageResponse`. -/
def handleMessageResponse (env : Env) (outerData : Json) (w : World) : Option World := do
  let some topic := rj.getSafe outerData "topic" | return w
  let some payload := rj.getSafe outerData "message" | return w
  let some msg := env.parse payload | return w
  if startsWith "whispers." topic then
    let some whisperType := rj.getSafe msg "type" | return w
    if whisperType = "whisper_received" then
      return w.invoke (.whisperReceived msg)
    else if whisperType = "whisper_sent" then
      return w.invoke (.whisperSent msg)
    else if whisperType = "thread" then
      return w
    else
      assert env false
      return w
  else if startsWith "chat_moderator_actions." topic then
    let topicParts := splitDot topic
    assert env (topicParts.length = 3)
    let data ← msg.member? "data"
    let some moderationAction := rj.getSafe data "moderation_action" | return w
    let some handler := findHandler moderationAction (moderationActionHandlers env)
      | return w
    handler data (← topicParts[2]?) w
  else
    return w

/-- The call `clients.find(hdl)`: the client under the handle, if there is one. -/
def mapFindClient (hdl : WebsocketHandle) :
    List (WebsocketHandle × PubSubClient) → Option PubSubClient
  | [] => none
  | (h, c) :: rest => if h = hdl then some c else mapFindClient hdl rest

/-- A write to the client that `clients.find(hdl)` points to. -/
def mapSetClient (hdl : WebsocketHandle) (client : PubSubClient) :
    List (WebsocketHandle × PubSubClient) → List (WebsocketHandle × PubSubClient)
  | [] => []
  | (h, c) :: rest =>
    if h = hdl then (h, client) :: rest else (h, c) :: mapSetClient hdl client rest

/-- The method `onMessage`; `hdl` is the connection the frame arrived on and
`payload` its text. -/
def onMessage (env : Env) (hdl : WebsocketHandle) (payload : String) (p : PubSub)
    (w : World) : Option (PubSub × World) := do
  let some msg := env.parse payload | return (p, w)
  if !msg.isObject then
    return (p, w)
  let some type := rj.getSafe msg "type" | return (p, w)
  if type = "RESPONSE" then
    return (p, handleListenResponse msg w)
  else if type = "MESSAGE" then
    if !(← msg.hasMember? "data") then
      return (p, w)
    let data ← msg.member? "data"
    if !data.isObject then
      return (p, w)
    let w1 ← handleMessageResponse env data w
    return (p, w1)
  else if type = "PONG" then
    let clientIt := mapFindClient hdl p.clients
    assert env clientIt.isSome
    let client ← clientIt
    let client1 ← client.handlePong env
    return ({ p with clients := mapSetClient hdl client1 p.clients }, w)
  else
    return (p, w)

/-- The method `onConnectionOpen`. -/
def onConnectionOpen (env : Env) (ec : Bool) (hdl : WebsocketHandle) (p : PubSub)
    (w : World) : Option (PubSub × World) := do
  let client := PubSubClient.new hdl
  let r ← client.start env ec w
  let p1 := { p with clients := mapEmplace hdl r.1 p.clients }
  return (p1, { r.2 with events := r.2.events ++ [Event.connected] })

/-- The call `clients.erase(clientIt)` for the entry that `clients.find(hdl)` found. -/
def mapErase (hdl : WebsocketHandle) :
    List (WebsocketHandle × PubSubClient) → List (WebsocketHandle × PubSubClient)
  | [] => []
  | (h, c) :: rest => if h = hdl then rest else (h, c) :: mapErase hdl rest

/-- The method `onConnectionClose`. -/
def onConnectionClose (env : Env) (hdl : WebsocketHandle) (p : PubSub) (w : World) :
    Option (PubSub × World) := do
  let clientIt := mapFindClient hdl p.clients
  assert env clientIt.isSome
  let client ← clientIt
  let _stopped ← client.stop env
  let p1 := { p with clients := mapErase hdl p.clients }
  return (p1, w.invoke Event.connected)

/-- Modelled from the spec: `TwitchAccount` is declared outside the sources; the
"Credential Provider supplies `{userID, authToken}` per identity". -/
structure TwitchAccount where
  userId : String
  oauthToken : String
  deriving DecidableEq, Repr

/-- The method `listenToTopic`; the account is the one behind the shared pointer. -/
def listenToTopic (env : Env) (uuid : String) (ec : Bool) (topic : String)
    (account : TwitchAccount) (p : PubSub) (w : World) : Option (PubSub × World) :=
  let message := createListenMessage [topic] account.oauthToken
  p.listen env uuid ec w message

/-- The method `listenToChannelModerationActions`; `account` is `none` for a null
pointer. -/
def listenToChannelModerationActions (env : Env) (uuid : String) (ec : Bool)
    (channelID : String) (account : Option TwitchAccount) (p : PubSub) (w : World) :
    Option (PubSub × World) := do
  assert env (!channelID.isEmpty)
  assert env account.isSome
  let acc ← account
  let userID := acc.userId
  assert env (!userID.isEmpty)
  let topic := "chat_moderator_actions." ++ userID ++ "." ++ channelID
  if p.isListeningToTopic topic then
    return (p, w)
  listenToTopic env uuid ec topic acc p w

end PubSub

/-! ## `EmoteManager`: the emoji table and `parseEmojis` (`singletons/emotemanager.cpp`)

A `QString` is the list of its UTF-16 code units here. The type `E` stands for
`util::EmoteData`, which is declared outside the sources; `dflt` is the
default-constructed `util::EmoteData()` that marks plain text. -/

/-- A `QChar`: one UTF-16 code unit. -/
abbrev QChar := Nat

/-- The test `QChar::isLowSurrogate`. -/
def isLowSurrogate (c : QChar) : Bool := decide (0xDC00 ≤ c ∧ c ≤ 0xDFFF)

/-- The struct `EmojiData` as `loadEmojis` fills it: the emoji as text, its code, its
short code and its emote data. -/
structure EmojiData (E : Type) where
  value : List QChar
  code : String
  shortCode : String
  emoteData : E

namespace EmoteManager

/-- The member `emojiFirstByte`, a map from the first `QChar` of an emoji to the
emojis that start with it, as its entries. -/
abbrev FirstByteMap (E : Type) := List (QChar × List (EmojiData E))

/-- The call `emojiFirstByte.find(character)`. -/
def firstByteFind {E : Type} (character : QChar) :
    FirstByteMap E → Option (List (EmojiData E))
  | [] => none
  | (k, v) :: rest => if k = character then some v else firstByteFind character rest

/-- The loop `for (int j = 1; j < emoji.value.length(); ++j)` of `parseEmojis`:
`pos` is `i + j` and the list is the emoji from position `j` on. The result tells
whether the loop leaves `match` set; `text.at` needs a position inside the text. -/
def matchTail (text : List QChar) : Nat → List QChar → Option Bool
  | _, [] => some true
  | pos, v :: vs => do
    let t ← text[pos]?
    if t ≠ v then
      return false
    matchTail text (pos + 1) vs

/-- The loop `for (const EmojiData &emoji : possibleEmojis)` of `parseEmojis`: the
emoji at which it breaks, if it does. -/
def findMatch {E : Type} (text : List QChar) (i : Nat) :
    List (EmojiData E) → Option (Option (EmojiData E))
  | [] => some none
  | emoji :: rest => do
    let remainingCharacters : Int := (text.length : Int) - i - 1
    let emojiExtraCharacters : Int := (emoji.value.length : Int) - 1
    if emojiExtraCharacters > remainingCharacters then
      findMatch text i rest
    else
      let isMatch ← matchTail text (i + 1) emoji.value.tail
      if isMatch then
        return some emoji
      else
        findMatch text i rest

/-- The call `text.mid(position, n)`. -/
def mid (text : List QChar) (position n : Nat) : List QChar :=
  (text.drop position).take n

/-- The loop `for (auto i = 0; i < text.length(); ++i)` of `parseEmojis`, from the
state `i`, `lastParsedEmojiEndIndex`, `parsedWords` on; it yields the last two when
the loop is left. The first argument bounds the number of iterations; `none` stands
for a stop of the process or for a bound that was too small. -/
def parseLoop {E : Type} (emojiFirstByte : FirstByteMap E) (dflt : E) (text : List QChar) :
    Nat → Nat → Nat → List (E × List QChar) → Option (Nat × List (E × List QChar))
  | 0, _, _, _ => none
  | fuel + 1, i, lastParsedEmojiEndIndex, parsedWords =>
    if i < text.length then do
      let character ← text[i]?
      if isLowSurrogate character then
        parseLoop emojiFirstByte dflt text fuel (i + 1) lastParsedEmojiEndIndex parsedWords
      else
        match firstByteFind character emojiFirstByte with
        | none =>
          parseLoop emojiFirstByte dflt text fuel (i + 1) lastParsedEmojiEndIndex parsedWords
        | some possibleEmojis =>
          match ← findMatch text i possibleEmojis with
          | none =>
            parseLoop emojiFirstByte dflt text fuel (i + 1) lastParsedEmojiEndIndex
              parsedWords
          | some matchedEmoji =>
            let matchedEmojiLength := matchedEmoji.value.length
            if matchedEmojiLength = 0 then
              parseLoop emojiFirstByte dflt text fuel (i + 1) lastParsedEmojiEndIndex
                parsedWords
            else
              let currentParsedEmojiFirstIndex := i
              let currentParsedEmojiEndIndex := i + matchedEmojiLength
              let charactersFromLastParsedEmoji : Int :=
                (currentParsedEmojiFirstIndex : Int) - lastParsedEmojiEndIndex
              let words1 :=
                if charactersFromLastParsedEmoji > 0 then
                  parsedWords ++ [(dflt, mid text lastParsedEmojiEndIndex
                    (currentParsedEmojiFirstIndex - lastParsedEmojiEndIndex))]
                else parsedWords
              let words2 := words1 ++ [(matchedEmoji.emoteData, [])]
              parseLoop emojiFirstByte dflt text fuel (i + (matchedEmojiLength - 1) + 1)
                currentParsedEmojiEndIndex words2
    else
      some (lastParsedEmojiEndIndex, parsedWords)

/-- The method `parseEmojis`: the words it leaves in `parsedWords`. Every iteration
of the loop raises `i`, so `text.length() + 1` bounds their number. -/
def parseEmojis {E : Type} (emojiFirstByte : FirstByteMap E) (dflt : E)
    (parsedWords : List (E × List QChar)) (text : List QChar) :
    Option (List (E × List QChar)) := do
  let r ← parseLoop emojiFirstByte dflt text (text.length + 1) 0 0 parsedWords
  if r.1 < text.length then
    return r.2 ++ [(dflt, text.drop r.1)]
  return r.2

end EmoteManager

/-! ## Runs of operations -/

/-- The public operations of a client that change it or the world. -/
inductive ClientOp where
  | start (ec : Bool) : ClientOp
  | listen (uuid : String) (ec : Bool) (message : Json) : ClientOp
  | unlistenPrefix (uuid nonce : String) (ec : Bool) (pre : String) : ClientOp
  | handlePong : ClientOp
  | ping (ec : Bool) : ClientOp
  | stop : ClientOp

/-- One operation on a client. -/
def ClientOp.apply (env : Env) (op : ClientOp) (s : PubSubClient × World) :
    Option (PubSubClient × World) :=
  match op with
  | .start ec => s.1.start env ec s.2
  | .listen uuid ec message => (s.1.listen env uuid ec s.2 message).map fun r => (r.client, r.world)
  | .unlistenPrefix uuid nonce ec pre => s.1.unlistenPrefix env uuid nonce ec s.2 pre
  | .handlePong => (s.1.handlePong env).map fun c => (c, s.2)
  | .ping ec => s.1.ping env ec s.2
  | .stop => (s.1.stop env).map fun c => (c, s.2)

/-- A sequence of operations on a client, first to last; `none` when the process
stops on the way. -/
def runClient (env : Env) : List ClientOp → PubSubClient × World → Option (PubSubClient × World)
  | [], s => some s
  | op :: ops, s => (op.apply env s).bind (runClient env ops)

/-- The world before anything happened. -/
def World.empty : World := { sentMessages := [], sent := [], timers := [], events := [] }

/-- The strings of an array of strings. -/
def topicStrings : List Json → Option (List String)
  | [] => some []
  | topic :: rest => do
    let name ← topic.getString?
    let names ← topicStrings rest
    return name :: names

/-- The topics of a request document: `message["data"]["topics"]` read as an array
of strings. -/
def requestTopics (message : Json) : Option (List String) := do
  let topics ← (← (← message.member? "data").member? "topics").getArray?
  topicStrings topics

/-- The value of a text of decimal digits. -/
def decimalValue : List Char → Option Nat
  | [] => none
  | cs => cs.foldl
      (fun acc c => acc.bind fun n => if c.isDigit then some (10 * n + (c.toNat - 48)) else none)
      (some 0)

/-- The white space that `QString::toUInt` skips at both ends of a text: the
characters for which `QChar::isSpace` holds. -/
def isSpace (c : Char) : Bool :=
  (9 ≤ c.toNat && c.toNat ≤ 13) || c.toNat == 0x20 || c.toNat == 0x85 || c.toNat == 0xA0 ||
    c.toNat == 0x1680 || (0x2000 ≤ c.toNat && c.toNat ≤ 0x200A) || c.toNat == 0x2028 ||
    c.toNat == 0x2029 || c.toNat == 0x202F || c.toNat == 0x205F || c.toNat == 0x3000

/-- A text without the white space at its ends. -/
def trimmed (cs : List Char) : List Char :=
  ((cs.dropWhile isSpace).reverse.dropWhile isSpace).reverse

/-- A text without the `+` that may stand before a number. -/
def dropPlus : List Char → List Char
  | '+' :: cs => cs
  | cs => cs

/-- The conversion of the examples, as the pair of the number returned and the flag
left in `ok`: white space at the ends is skipped, a `+` may stand first, and the rest
is a decimal numeral below `2^32`; every other text is not converted and gives 0. -/
def sampleConversion (s : String) : Nat × Bool :=
  match decimalValue (dropPlus (trimmed s.data)) with
  | some n => if n < 2 ^ 32 then (n, true) else (0, false)
  | none => (0, false)

/-- The number that the conversion of the examples returns. -/
def sampleToUInt (s : String) : Nat := (sampleConversion s).1

/-- The flag that the conversion of the examples leaves in `ok`. -/
def sampleToUIntOk (s : String) : Bool := (sampleConversion s).2

/-- The documents that the parser of the examples knows. -/
def sampleDocs : List Json :=
  [.obj [("type", .str "PONG")],
   .obj [("type", .str "PING")],
   .obj [("type", .str "RESPONSE"), ("error", .str ""), ("nonce", .str "u1")],
   .obj [("type", .str "RESPONSE"), ("error", .str "ERR_BADAUTH"), ("nonce", .str "u1")],
   .arr [.str "PONG"],
   .obj [("type", .str "whisper_received"), ("data", .str "hello")],
   .obj [("type", .str "whisper_sent"), ("data", .str "hello")],
   .obj [("type", .str "thread")],
   .obj [("type", .str "whisper_edited")],
   .obj [("data", .obj [("moderation_action", .str "clear")])],
   .obj [("data", .obj [("moderation_action", .str "unknown_xyz")])],
   .obj [("data", .obj [("args", .arr [])])],
   .obj [("no_data", .null)],
   .obj [("data", .obj [("moderation_action", .str "timeout"),
      ("args", .arr [.str "baduser", .str "600", .str "spam"])])],
   .obj [("data", .obj [("moderation_action", .str "ban"), ("args", .arr [])])],
   .obj [("data", .obj [("moderation_action", .str "mod")])],
   .obj [("type", .str "UNLISTEN"),
     ("data", .obj [("topics", .arr [.str "chat_moderator_actions.1.2"])]),
     ("nonce", .str "u3")],
   .obj [("type", .str "LISTEN"),
     ("data", .obj [("topics", .arr [.str "chat_moderator_actions.1.2"]),
       ("auth_token", .str "tok")]),
     ("nonce", .str "u1")]]

/-- The parser of the examples: it reads the compact text of the sample documents
and reports an error on every other text. -/
def sampleParse (payload : String) : Option Json :=
  sampleDocs.find? fun doc => doc.render = payload

/-- The user helpers of the examples read the members `created_by`,
`created_by_user_id` and `target_user_id` of the payload. -/
def sampleCreatedByUser (data : Json) (user : ActionUser) : ActionUser :=
  { id := (rj.getSafe data "created_by_user_id").getD user.id,
    name := (rj.getSafe data "created_by").getD user.name }

/-- See `sampleCreatedByUser`. -/
def sampleTargetUser (data : Json) (user : ActionUser) : ActionUser :=
  { user with id := (rj.getSafe data "target_user_id").getD user.id }

/-- A build for the examples: assertions on, fifty topics per connection, compact
JSON text. -/
def sampleEnv : Env :=
  { NDEBUG := false, MAX_PUBSUB_LISTENS := 50, stringify := Json.render,
    parse := sampleParse, toUInt := sampleToUInt,
    toUIntOk := sampleToUIntOk,
    getCreatedByUser := sampleCreatedByUser, getTargetUser := sampleTargetUser }

/-! ## Vocabulary of the statements -/

/-- The listener `listen` creates for a topic. -/
def Listener.ofTopic (topic : String) : Listener := Listener.mk topic false false false

/-- The client after it accepted a request for the topics `names`: one listener
more per topic, at the end and in request order, and the counter raised by their
number. -/
def PubSubClient.accepted (c : PubSubClient) (names : List String) : PubSubClient :=
  { c with numListens := c.numListens + names.length,
           listeners := c.listeners ++ names.map Listener.ofTopic }

/-- The world after the client under `handle` stored `payload` under `key` in
`sentMessages` and handed it to the transport as one frame. -/
def World.recorded (w : World) (handle : WebsocketHandle) (key payload : String) : World :=
  { w with sentMessages := mapAssign key payload w.sentMessages,
           sent := w.sent ++ [(handle, payload)] }

/-- The topics of the listeners that start with `pre`, in listener order. -/
def removedTopics (pre : String) (listeners : List Listener) : List String :=
  (listeners.filter fun l => startsWith pre l.topic).map Listener.topic

/-- The UNLISTEN message for `topics` with its nonce set. -/
def unlistenMessage (topics : List String) (nonce : String) : Json :=
  .obj [("type", .str "UNLISTEN"), ("data", .obj [("topics", .arr (topics.map Json.str))]),
        ("nonce", .str nonce)]

/-- The client without its listeners that start with `pre`; the other listeners
keep their order. -/
def PubSubClient.unlistened (c : PubSubClient) (pre : String) : PubSubClient :=
  { c with listeners := c.listeners.filter fun l => !startsWith pre l.topic }

/-- The entries of a client table whose client has a listener starting with `pre`. -/
def clientsWith (pre : String) (clients : List (WebsocketHandle × PubSubClient)) :
    List (WebsocketHandle × PubSubClient) :=
  clients.filter fun e => !(removedTopics pre e.2.listeners).isEmpty

/-- The client `onConnectionOpen` registers under `hdl`: constructed and started;
it awaits a pong unless the transport refused the PING (`ec`). -/
def PubSubClient.opened (hdl : WebsocketHandle) (ec : Bool) : PubSubClient :=
  { PubSubClient.new hdl with started := true, awaitingPong := !ec }

/-- The world after the client under `hdl` ran `ping` with transport result `ec`:
the PING frame was handed over, and the two timers are armed unless it failed. -/
def World.pinged (w : World) (hdl : WebsocketHandle) (ec : Bool) : World :=
  { w with sent := w.sent ++ [(hdl, pingPayload)],
           timers := w.timers ++
             (if ec then [] else [Timer.mk hdl 15 .pongCheck, Timer.mk hdl 300 .pingAgain]) }

/-- The event of a ban or timeout of the user `name`: the source and the rest of
the target are what the user helpers read from the payload. -/
def bannedEvent (env : Env) (data : Json) (roomID name reason : String)
    (duration : Option Nat) : Event :=
  .userBanned { roomID := roomID, source := env.getCreatedByUser data {},
                target := { env.getTargetUser data {} with name := name },
                reason := reason, duration := duration }

/-- Whether `args` is an array with at least one element whose first element is a
string and whose second element, when present, is a string. -/
def banArgsOk (data : Json) : Bool :=
  match getArgs data with
  | some [.str _] => true
  | some (.str _ :: .str _ :: _) => true
  | _ => false

/-- A run of timer callbacks on a client, first to last, each with the error code
the transport would report to it. -/
def fireAll (env : Env) :
    List (TimerCallback × Bool) → PubSubClient × World → Option (PubSubClient × World)
  | [], s => some s
  | (callback, ec) :: rest, s => (s.1.fire env ec callback s.2).bind (fireAll env rest)

/-- The member `data` of a MESSAGE frame for `topic` whose `message` is the compact
text of the document `nested`. -/
def messageData (topic : String) (nested : Json) : Json :=
  .obj [("topic", .str topic), ("message", .str nested.render)]

/-- The names the spec lists for the action table. -/
def actionNames : List String :=
  ["clear", "slow", "slowoff", "r9kbeta", "r9kbetaoff", "subscribers", "subscribersoff",
   "emoteonly", "emoteonlyoff", "mod", "unmod", "ban", "timeout", "unban", "untimeout"]

/-- Whether `args` is a non-empty array whose first element is a string. -/
def firstArgIsString (data : Json) : Bool :=
  match getArgs data with
  | some (.str _ :: _) => true
  | _ => false

/-- The event of a change of the moderator state of the user `name`; the rest of
the target is what `getTargetUser` read from the payload. -/
def moddedEvent (env : Env) (data : Json) (roomID name : String) (modded : Bool) : Event :=
  .moderationStateChanged
    { roomID := roomID, target := { env.getTargetUser data {} with name := name },
      modded := modded }

/-- The event of an unban or untimeout of the user `name`. -/
def unbannedEvent (env : Env) (data : Json) (roomID name : String)
    (previousState : UnbanAction.PreviousState) : Event :=
  .userUnbanned
    { roomID := roomID, source := env.getCreatedByUser data {},
      target := { env.getTargetUser data {} with name := name },
      previousState := previousState }

/-- The event of slow mode switched on with a duration. -/
def slowEvent (roomID : String) (duration : Nat) : Event :=
  .modeChanged { roomID := roomID, mode := .Slow, state := .On, duration := some duration }

/-- A run of a client: it is started, accepts a request for one topic, gets its
pong and is stopped. -/
def sampleRun : List ClientOp :=
  [.start false, .listen "u1" false (createListenMessage ["whispers.9"] "tok"),
   .handlePong, .stop]

/-- The frame of the request of `sampleRun`. -/
def sampleFrame : String :=
  "\x7b\"type\":\"LISTEN\",\"data\":\x7b\"topics\":[\"whispers.9\"]," ++
    "\"auth_token\":\"tok\"\x7d,\"nonce\":\"u1\"\x7d"

/-- The state in which `sampleRun` leaves a fresh client under handle 7 and the
empty world. -/
def sampleRunEnd : PubSubClient × World :=
  ({ handle := 7, numListens := 1, listeners := [Listener.ofTopic "whispers.9"],
     started := false, awaitingPong := false },
   { sentMessages := [("u1", sampleFrame)],
     sent := [(7, pingPayload), (7, sampleFrame)],
     timers := [Timer.mk 7 15 .pongCheck, Timer.mk 7 300 .pingAgain],
     events := [] })

/-- A build like `sampleEnv` with room for two topics per connection. -/
def smallEnv : Env := { sampleEnv with MAX_PUBSUB_LISTENS := 2 }

/-! ## Lemmas on the helpers -/

theorem stdFind_zero_iff (s needle : List Char) :
    stdFind s needle = some 0 ↔ needle.isPrefixOf s = true := by
  cases s with
  | nil =>
    unfold stdFind
    by_cases h : needle.isPrefixOf [] = true <;> simp [h]
  | cons c s =>
    unfold stdFind
    by_cases h : needle.isPrefixOf (c :: s) = true
    · simp [h]
    · simp only [h]
      cases stdFind s needle <;> simp

theorem unlistenLoop_eq (pre : String) (ls : List Listener) :
    PubSubClient.unlistenLoop pre ls =
      (removedTopics pre ls, ls.filter fun l => !startsWith pre l.topic) := by
  induction ls with
  | nil => rfl
  | cons l rest ih =>
    unfold PubSubClient.unlistenLoop
    rw [ih]
    by_cases h : pre.data.isPrefixOf l.topic.data = true
    · have h1 : stdFind l.topic.data pre.data = some 0 := (stdFind_zero_iff _ _).2 h
      simp [h1, startsWith, removedTopics, h]
    · have h1 : ¬ stdFind l.topic.data pre.data = some 0 :=
        fun e => h ((stdFind_zero_iff _ _).1 e)
      simp [h1, startsWith, removedTopics, h]

theorem listenLoop_of_topicStrings (topics : List Json) (names : List String)
    (h : topicStrings topics = some names) (ls : List Listener) :
    PubSubClient.listenLoop topics ls = some (ls ++ names.map Listener.ofTopic) := by
  induction topics generalizing names ls with
  | nil =>
    simp [topicStrings] at h
    subst h
    simp [PubSubClient.listenLoop]
  | cons t rest ih =>
    cases t with
    | str s =>
      cases hr : topicStrings rest with
      | none => simp [topicStrings, Json.getString?, hr] at h
      | some ns =>
        simp [topicStrings, Json.getString?, hr] at h
        subst h
        simp [PubSubClient.listenLoop, Json.getString?, ih ns hr, Listener.ofTopic]
    | _ => simp [topicStrings, Json.getString?] at h

theorem topicStrings_length (topics : List Json) (names : List String)
    (h : topicStrings topics = some names) : names.length = topics.length := by
  induction topics generalizing names with
  | nil => simp [topicStrings] at h; subst h; rfl
  | cons t rest ih =>
    cases ht : t.getString? with
    | none => simp [topicStrings, ht] at h
    | some s =>
      cases hr : topicStrings rest with
      | none => simp [topicStrings, ht, hr] at h
      | some ns =>
        simp [topicStrings, ht, hr] at h
        subst h
        simp [ih ns hr]

theorem topicStrings_map_str (names : List String) :
    topicStrings (names.map Json.str) = some names := by
  induction names with
  | nil => rfl
  | cons n ns ih => simp [topicStrings, Json.getString?, ih]

/-- A request with topics is an object with an object member `data` whose member
`topics` is an array of strings. -/
theorem requestTopics_shape (message : Json) (names : List String)
    (h : requestTopics message = some names) :
    ∃ ms data topics, message = Json.obj ms ∧ message.member? "data" = some data ∧
      data.member? "topics" = some (Json.arr topics) ∧
      topicStrings topics = some names := by
  unfold requestTopics at h
  cases message with
  | obj ms =>
    cases hd : (Json.obj ms).member? "data" with
    | none => simp [hd] at h
    | some data =>
      cases ht : data.member? "topics" with
      | none => simp [hd, ht] at h
      | some tv =>
        cases tv with
        | arr topics =>
          simp [hd, ht, Json.getArray?] at h
          exact ⟨ms, data, topics, rfl, rfl, ht, h⟩
        | _ => simp [hd, ht, Json.getArray?] at h
  | _ => simp [Json.member?] at h

/-! ## Lemmas on `PubSubClient` -/

/-- The method `listen` on a request with topics, in closed form. -/
theorem listen_of_requestTopics (env : Env) (uuid : String) (ec : Bool) (c : PubSubClient)
    (w : World) (message : Json) (names : List String)
    (h : requestTopics message = some names) :
    ∃ message1, rj.set message "nonce" (.str uuid) = some message1 ∧
      c.listen env uuid ec w message = some
        (if c.numListens + names.length > env.MAX_PUBSUB_LISTENS then
          { ok := false, client := c, world := w, message := message }
        else
          { ok := true, client := c.accepted names,
            world := w.recorded c.handle uuid (env.stringify message1),
            message := message1 }) := by
  obtain ⟨ms, data, topics, hm, hd, ht, hs⟩ := requestTopics_shape message names h
  subst hm
  refine ⟨_, rfl, ?_⟩
  have hlen := topicStrings_length topics names hs
  unfold PubSubClient.listen
  simp only [hd, ht, Json.getArray?, Option.bind_eq_bind, Option.some_bind, hlen]
  by_cases hcap : c.numListens + topics.length > env.MAX_PUBSUB_LISTENS
  · simp [hcap]
  · simp [hcap, listenLoop_of_topicStrings topics names hs, rj.set, PubSubClient.send,
      PubSubClient.accepted, World.recorded, hlen]

theorem listen_numListens_le (env : Env) (uuid : String) (ec : Bool) (c : PubSubClient)
    (w : World) (message : Json) (r : PubSubClient.ListenResult)
    (h : c.listen env uuid ec w message = some r)
    (hc : c.numListens ≤ env.MAX_PUBSUB_LISTENS) :
    r.client.numListens ≤ env.MAX_PUBSUB_LISTENS := by
  unfold PubSubClient.listen at h
  cases hd : message.member? "data" with
  | none => simp [hd] at h
  | some data =>
    cases ht : data.member? "topics" with
    | none => simp [hd, ht] at h
    | some tv =>
      cases ha : tv.getArray? with
      | none => simp [hd, ht, ha] at h
      | some topics =>
        simp only [hd, ht, ha, Option.bind_eq_bind, Option.some_bind] at h
        by_cases hcap : c.numListens + topics.length > env.MAX_PUBSUB_LISTENS
        · simp [hcap] at h
          subst h
          exact hc
        · simp only [hcap, if_false] at h
          cases hl : PubSubClient.listenLoop topics c.listeners with
          | none => simp [hl] at h
          | some ls =>
            cases hs : rj.set message "nonce" (Json.str uuid) with
            | none => simp [hl, hs] at h
            | some m1 =>
              simp [hl, hs] at h
              subst h
              simp
              omega

theorem ping_numListens (env : Env) (ec : Bool) (c : PubSubClient) (w : World)
    (s : PubSubClient × World) (h : c.ping env ec w = some s) :
    s.1.numListens = c.numListens := by
  unfold PubSubClient.ping at h
  cases ha : assert env c.started with
  | none => simp [ha] at h
  | some u =>
    simp only [ha, Option.bind_eq_bind, Option.some_bind] at h
    split at h
    · simp at h; subst h; simp
    · simp at h; subst h; simp

theorem start_numListens (env : Env) (ec : Bool) (c : PubSubClient) (w : World)
    (s : PubSubClient × World) (h : c.start env ec w = some s) :
    s.1.numListens = c.numListens := by
  unfold PubSubClient.start at h
  cases ha : assert env (!c.started) with
  | none => simp [ha] at h
  | some u =>
    simp only [ha, Option.bind_eq_bind, Option.some_bind] at h
    exact ping_numListens env ec { c with started := true } w s h

theorem set_createUnlistenMessage (topics : List String) (nonce : String) :
    rj.set (createUnlistenMessage topics) "nonce" (.str nonce) =
      some (unlistenMessage topics nonce) := rfl

theorem unlistenMessage_topics (topics : List String) (nonce : String) :
    requestTopics (unlistenMessage topics nonce) = some topics := by
  simp [requestTopics, unlistenMessage, Json.member?, Json.findMember, Json.getArray?,
    topicStrings_map_str]

/-- The method `unlistenPrefix` in closed form: it always returns. -/
theorem unlistenPrefix_eq (env : Env) (uuid nonce : String) (ec : Bool)
    (c : PubSubClient) (w : World) (pre : String) :
    c.unlistenPrefix env uuid nonce ec w pre = some
      (c.unlistened pre,
        if removedTopics pre c.listeners = [] then w
        else w.recorded c.handle uuid
          (env.stringify (unlistenMessage (removedTopics pre c.listeners) nonce))) := by
  unfold PubSubClient.unlistenPrefix
  simp only [unlistenLoop_eq, Option.bind_eq_bind]
  by_cases h : removedTopics pre c.listeners = []
  · simp [h, PubSubClient.unlistened]
  · have h2 : (removedTopics pre c.listeners).isEmpty = false := by
      cases hr : removedTopics pre c.listeners with
      | nil => exact absurd hr h
      | cons a b => rfl
    simp [h, h2, set_createUnlistenMessage, PubSubClient.send, World.recorded,
      PubSubClient.unlistened]

theorem apply_numListens_le (env : Env) (op : ClientOp) (s t : PubSubClient × World)
    (h : op.apply env s = some t) (hs : s.1.numListens ≤ env.MAX_PUBSUB_LISTENS) :
    t.1.numListens ≤ env.MAX_PUBSUB_LISTENS := by
  cases op with
  | start ec => rw [start_numListens env ec s.1 s.2 t h]; exact hs
  | listen uuid ec message =>
    simp only [ClientOp.apply, Option.map_eq_some'] at h
    obtain ⟨r, hr, rfl⟩ := h
    exact listen_numListens_le env uuid ec s.1 s.2 message r hr hs
  | unlistenPrefix uuid nonce ec pre =>
    simp only [ClientOp.apply, unlistenPrefix_eq, Option.some.injEq] at h
    subst h
    exact hs
  | handlePong =>
    simp only [ClientOp.apply, Option.map_eq_some'] at h
    obtain ⟨c, hc, rfl⟩ := h
    unfold PubSubClient.handlePong at hc
    cases ha : assert env s.1.awaitingPong with
    | none => simp [ha] at hc
    | some u => simp [ha] at hc; subst hc; exact hs
  | ping ec => rw [ping_numListens env ec s.1 s.2 t h]; exact hs
  | stop =>
    simp only [ClientOp.apply, Option.map_eq_some'] at h
    obtain ⟨c, hc, rfl⟩ := h
    unfold PubSubClient.stop at hc
    cases ha : assert env s.1.started with
    | none => simp [ha] at hc
    | some u => simp [ha] at hc; subst hc; exact hs

theorem findMember_setMember_same (key : String) (value : Json) (ms : List (String × Json)) :
    Json.findMember key (Json.setMember key value ms) = some value := by
  induction ms with
  | nil => simp [Json.setMember, Json.findMember]
  | cons m ms ih =>
    obtain ⟨k, v⟩ := m
    by_cases hk : k = key
    · simp [Json.setMember, Json.findMember, hk]
    · simp [Json.setMember, Json.findMember, hk, ih]

theorem findMember_setMember_ne (key other : String) (value : Json)
    (ms : List (String × Json)) (hne : other ≠ key) :
    Json.findMember other (Json.setMember key value ms) = Json.findMember other ms := by
  have hne2 : ¬ key = other := fun e => hne e.symm
  induction ms with
  | nil => simp [Json.setMember, Json.findMember, hne2]
  | cons m ms ih =>
    obtain ⟨k, v⟩ := m
    by_cases hk : k = key
    · subst hk
      simp [Json.setMember, Json.findMember, hne2]
    · by_cases hko : k = other
      · subst hko
        simp [Json.setMember, Json.findMember, hk]
      · simp [Json.setMember, Json.findMember, hk, hko, ih]

theorem mapFind_mapAssign_same (key value : String) (m : List (String × String)) :
    mapFind key (mapAssign key value m) = some value := by
  induction m with
  | nil => simp [mapAssign, mapFind]
  | cons e m ih =>
    obtain ⟨k, v⟩ := e
    by_cases hk : k = key
    · simp [mapAssign, mapFind, hk]
    · simp [mapAssign, mapFind, hk, ih]

theorem isListeningToTopicLoop_iff (topic : String) (ls : List Listener) :
    PubSubClient.isListeningToTopicLoop topic ls = true ↔ ∃ l ∈ ls, l.topic = topic := by
  induction ls with
  | nil => simp [PubSubClient.isListeningToTopicLoop]
  | cons l rest ih =>
    unfold PubSubClient.isListeningToTopicLoop
    by_cases h : l.topic = topic
    · simp [h]
    · simp [h, ih]

/-! ## Theorems on `PubSubClient` -/

/-- C1 (capacity bound): every state a client reaches from a freshly constructed
one by a sequence of `start`, `listen`, `unlistenPrefix`, `handlePong`, `ping` and
`stop` has `numListens <= MAX_PUBSUB_LISTENS`. -/
theorem numListens_le_max (env : Env) (handle : WebsocketHandle) (w0 : World)
    (ops : List ClientOp) (s : PubSubClient × World)
    (h : runClient env ops (PubSubClient.new handle, w0) = some s) :
    s.1.numListens ≤ env.MAX_PUBSUB_LISTENS := by
  have key : ∀ (ops : List ClientOp) (a b : PubSubClient × World),
      runClient env ops a = some b → a.1.numListens ≤ env.MAX_PUBSUB_LISTENS →
      b.1.numListens ≤ env.MAX_PUBSUB_LISTENS := by
    intro ops
    induction ops with
    | nil =>
      intro a b hab ha
      simp [runClient] at hab
      subst hab
      exact ha
    | cons op ops ih =>
      intro a b hab ha
      simp only [runClient, Option.bind_eq_some] at hab
      obtain ⟨u, hu, hb⟩ := hab
      exact ih u b hb (apply_numListens_le env op a u hu ha)
  exact key ops _ s h (Nat.zero_le _)

/-- The capacity bound on a run: a client is started, accepts one topic, gets its
pong and is stopped. -/
theorem numListens_le_max_witness :
    runClient sampleEnv sampleRun (PubSubClient.new 7, World.empty) = some sampleRunEnd ∧
      sampleRunEnd.1.numListens ≤ sampleEnv.MAX_PUBSUB_LISTENS :=
  ⟨rfl, numListens_le_max sampleEnv 7 World.empty sampleRun sampleRunEnd rfl⟩

/-- C2 (count/listener agreement), evaluated on the code: a fresh client accepts a
request for the one topic `chat_moderator_actions.1.2` and then runs
`unlistenPrefix("chat_moderator_actions.")`, as `unlistenAllModerationActions` makes
it do. The listener is removed and `numListens` is still 1: `unlistenPrefix` erases
listeners without touching the counter. -/
theorem unlistenPrefix_keeps_numListens :
    (runClient sampleEnv
        [.listen "u1" false (createListenMessage ["chat_moderator_actions.1.2"] "tok"),
         .unlistenPrefix "u2" "u3" false "chat_moderator_actions."]
        (PubSubClient.new 7, World.empty)).map
      (fun s => (s.1.numListens, s.1.listeners.length)) = some (1, 0) := by
  decide

/-- C3 (`PubSubClient::listen`, rejection): for a request with the topics `names`,
`listen` returns, it returns `false` exactly when
`numListens + N > MAX_PUBSUB_LISTENS`, and then the client (listeners and
`numListens`), the world (`sentMessages` and the frames sent) and the request
document are what they were. -/
theorem listen_rejects (env : Env) (uuid : String) (ec : Bool) (c : PubSubClient)
    (w : World) (message : Json) (names : List String)
    (h : requestTopics message = some names) :
    ∃ r, c.listen env uuid ec w message = some r ∧
      (r.ok = false ↔ c.numListens + names.length > env.MAX_PUBSUB_LISTENS) ∧
      (r.ok = false → r.client = c ∧ r.world = w ∧ r.message = message) := by
  obtain ⟨message1, -, hl⟩ := listen_of_requestTopics env uuid ec c w message names h
  by_cases hcap : c.numListens + names.length > env.MAX_PUBSUB_LISTENS
  · rw [if_pos hcap] at hl
    exact ⟨_, hl, by simp [hcap], fun _ => ⟨rfl, rfl, rfl⟩⟩
  · rw [if_neg hcap] at hl
    exact ⟨_, hl, by simp [hcap], fun hf => by simp at hf⟩

/-- The rejection on a full client and a request for one topic. -/
theorem listen_rejects_witness :
    ∃ r, ({ PubSubClient.new 7 with numListens := 50 }).listen sampleEnv "u1" false
        World.empty (createListenMessage ["whispers.9"] "tok") = some r ∧
      (r.ok = false ↔ 50 + 1 > sampleEnv.MAX_PUBSUB_LISTENS) ∧
      (r.ok = false → r.client = { PubSubClient.new 7 with numListens := 50 } ∧
        r.world = World.empty ∧ r.message = createListenMessage ["whispers.9"] "tok") :=
  listen_rejects sampleEnv "u1" false { PubSubClient.new 7 with numListens := 50 }
    World.empty (createListenMessage ["whispers.9"] "tok") ["whispers.9"] (by decide)

/-- C4 (`PubSubClient::listen`, acceptance): for a request with the topics `names`
and `numListens + N <= MAX_PUBSUB_LISTENS`, `listen` returns `true`; the client has
one more listener per topic, appended in request order, so that it is listening to
every requested topic, and `numListens` is raised by `N`; the request document has
its `nonce` set to the UUID and its other members untouched; its serialization is
stored in `sentMessages` under the UUID and is the one frame handed to the
transport. -/
theorem listen_accepts (env : Env) (uuid : String) (ec : Bool) (c : PubSubClient)
    (w : World) (message : Json) (names : List String)
    (h : requestTopics message = some names)
    (hcap : c.numListens + names.length ≤ env.MAX_PUBSUB_LISTENS) :
    ∃ r, c.listen env uuid ec w message = some r ∧ r.ok = true ∧
      r.client.listeners = c.listeners ++ names.map Listener.ofTopic ∧
      (∀ t ∈ names, r.client.isListeningToTopic t = true) ∧
      r.client.numListens = c.numListens + names.length ∧
      r.client.handle = c.handle ∧ r.client.started = c.started ∧
      r.client.awaitingPong = c.awaitingPong ∧
      rj.set message "nonce" (.str uuid) = some r.message ∧
      rj.getSafe r.message "nonce" = some uuid ∧
      (∀ key, key ≠ "nonce" → r.message.member? key = message.member? key) ∧
      mapFind uuid r.world.sentMessages = some (env.stringify r.message) ∧
      r.world.sentMessages = mapAssign uuid (env.stringify r.message) w.sentMessages ∧
      r.world.sent = w.sent ++ [(c.handle, env.stringify r.message)] ∧
      r.world.timers = w.timers ∧ r.world.events = w.events := by
  obtain ⟨message1, hset, hl⟩ := listen_of_requestTopics env uuid ec c w message names h
  have hcap2 : ¬ c.numListens + names.length > env.MAX_PUBSUB_LISTENS := by omega
  rw [if_neg hcap2] at hl
  obtain ⟨ms, -, -, hm, -, -, -⟩ := requestTopics_shape message names h
  subst hm
  simp only [rj.set, Option.some.injEq] at hset
  subst hset
  refine ⟨_, hl, rfl, rfl, ?_, rfl, rfl, rfl, rfl, rfl, ?_, ?_, ?_, rfl, rfl, rfl, rfl⟩
  · intro t ht
    simp only [PubSubClient.isListeningToTopic, isListeningToTopicLoop_iff]
    refine ⟨Listener.ofTopic t, ?_, rfl⟩
    simp only [PubSubClient.accepted, List.mem_append, List.mem_map]
    exact Or.inr ⟨t, ht, rfl⟩
  · simp [rj.getSafe, Json.member?, findMember_setMember_same, rj.getSafeValue,
      Json.getString?]
  · intro key hkey
    simp [Json.member?, findMember_setMember_ne _ _ _ _ hkey]
  · simp [World.recorded, mapFind_mapAssign_same]

/-- The acceptance on an empty client and a request for two topics. -/
theorem listen_accepts_witness :
    ∃ r, (PubSubClient.new 7).listen sampleEnv "u1" false World.empty
        (createListenMessage ["whispers.9", "whispers.8"] "tok") = some r ∧
      r.ok = true ∧
      r.client.listeners = [] ++ ["whispers.9", "whispers.8"].map Listener.ofTopic ∧
      (∀ t ∈ ["whispers.9", "whispers.8"], r.client.isListeningToTopic t = true) ∧
      r.client.numListens = 0 + 2 ∧
      r.client.handle = 7 ∧ r.client.started = false ∧
      r.client.awaitingPong = false ∧
      rj.set (createListenMessage ["whispers.9", "whispers.8"] "tok") "nonce" (.str "u1") =
        some r.message ∧
      rj.getSafe r.message "nonce" = some "u1" ∧
      (∀ key, key ≠ "nonce" → r.message.member? key =
        (createListenMessage ["whispers.9", "whispers.8"] "tok").member? key) ∧
      mapFind "u1" r.world.sentMessages = some (sampleEnv.stringify r.message) ∧
      r.world.sentMessages = mapAssign "u1" (sampleEnv.stringify r.message) [] ∧
      r.world.sent = [] ++ [(7, sampleEnv.stringify r.message)] ∧
      r.world.timers = [] ∧ r.world.events = [] :=
  listen_accepts sampleEnv "u1" false (PubSubClient.new 7) World.empty
    (createListenMessage ["whispers.9", "whispers.8"] "tok") ["whispers.9", "whispers.8"]
    (by decide) (by decide)

/-- C5 (prefix unlisten, listener effect): `unlistenPrefix(pre)` returns, and the
listeners afterwards are exactly the former listeners whose topic does not start
with `pre`, in their former order. So the client is listening to no topic that
starts with `pre`, and to any other topic exactly if it was before. From
`chat_moderator_actions.1.2`, `chat_moderator_actions.1.3`, `whispers.9` and
`pre = "chat_moderator_actions."` only `whispers.9` remains. -/
theorem unlistenPrefix_listeners (env : Env) (uuid nonce : String) (ec : Bool)
    (c : PubSubClient) (w : World) (pre : String) :
    ∃ s, c.unlistenPrefix env uuid nonce ec w pre = some s ∧
      s.1.listeners = c.listeners.filter (fun l => !startsWith pre l.topic) ∧
      (∀ t, startsWith pre t = true → s.1.isListeningToTopic t = false) ∧
      (∀ t, startsWith pre t = false →
        s.1.isListeningToTopic t = c.isListeningToTopic t) ∧
      (({ PubSubClient.new 7 with listeners :=
            [Listener.ofTopic "chat_moderator_actions.1.2",
             Listener.ofTopic "chat_moderator_actions.1.3",
             Listener.ofTopic "whispers.9"] }).unlistenPrefix sampleEnv "u2" "u3" false
          World.empty "chat_moderator_actions.").map
          (fun (s : PubSubClient × World) => s.1.listeners) =
        some [Listener.ofTopic "whispers.9"] := by
  refine ⟨_, unlistenPrefix_eq env uuid nonce ec c w pre, rfl, ?_, ?_, by decide⟩
  · intro t ht
    rw [Bool.eq_false_iff]
    intro hl
    simp only [PubSubClient.isListeningToTopic, isListeningToTopicLoop_iff,
      PubSubClient.unlistened, List.mem_filter] at hl
    obtain ⟨l, ⟨-, hl2⟩, hl3⟩ := hl
    rw [hl3, ht] at hl2
    simp at hl2
  · intro t ht
    rw [Bool.eq_iff_iff]
    simp only [PubSubClient.isListeningToTopic, isListeningToTopicLoop_iff,
      PubSubClient.unlistened, List.mem_filter]
    constructor
    · rintro ⟨l, ⟨hl1, -⟩, hl3⟩
      exact ⟨l, hl1, hl3⟩
    · rintro ⟨l, hl1, hl3⟩
      refine ⟨l, ⟨hl1, ?_⟩, hl3⟩
      rw [hl3, ht]
      rfl

/-! ## Lemmas on `PubSub` -/

/-- The loop of `unlistenAllModerationActions` in closed form: it always returns. -/
theorem unlistenAllLoop_eq (env : Env) (uuids : WebsocketHandle → String × String)
    (ecs : WebsocketHandle → Bool) (clients : List (WebsocketHandle × PubSubClient))
    (w : World) :
    ∃ t, PubSub.unlistenAllLoop env uuids ecs clients w = some t ∧
      t.1 = clients.map (fun e => (e.1, e.2.unlistened "chat_moderator_actions.")) ∧
      t.2.sent = w.sent ++ (clientsWith "chat_moderator_actions." clients).map (fun e =>
        (e.2.handle, env.stringify (unlistenMessage
          (removedTopics "chat_moderator_actions." e.2.listeners) (uuids e.1).2))) ∧
      t.2.timers = w.timers ∧ t.2.events = w.events := by
  induction clients generalizing w with
  | nil => exact ⟨_, rfl, rfl, by simp [clientsWith], rfl, rfl⟩
  | cons e rest ih =>
    obtain ⟨h, client⟩ := e
    unfold PubSub.unlistenAllLoop
    rw [unlistenPrefix_eq]
    simp only [Option.bind_eq_bind, Option.some_bind]
    obtain ⟨t, ht, ht1, ht2, ht3, ht4⟩ := ih
      (if removedTopics "chat_moderator_actions." client.listeners = [] then w
        else w.recorded client.handle (uuids h).1 (env.stringify (unlistenMessage
          (removedTopics "chat_moderator_actions." client.listeners) (uuids h).2)))
    rw [ht]
    refine ⟨_, rfl, ?_, ?_, ?_, ?_⟩
    · simp [ht1]
    · simp only [ht2]
      by_cases hr : removedTopics "chat_moderator_actions." client.listeners = []
      · simp [hr, clientsWith]
      · have h2 :
            (removedTopics "chat_moderator_actions." client.listeners).isEmpty = false := by
          cases hq : removedTopics "chat_moderator_actions." client.listeners with
          | nil => exact absurd hq hr
          | cons a b => rfl
        simp [hr, clientsWith, h2, World.recorded]
    · simp only [ht3]
      split <;> rfl
    · simp only [ht4]
      split <;> rfl

theorem tryListenLoop_all_full (env : Env) (uuid : String) (ec : Bool)
    (clients : List (WebsocketHandle × PubSubClient)) (w : World) (msg : Json)
    (names : List String) (h : requestTopics msg = some names)
    (hfull : ∀ e ∈ clients, e.2.numListens + names.length > env.MAX_PUBSUB_LISTENS) :
    PubSub.tryListenLoop env uuid ec clients w msg =
      some { ok := false, clients := clients, world := w, message := msg } := by
  induction clients with
  | nil => rfl
  | cons e rest ih =>
    obtain ⟨hdl, c⟩ := e
    obtain ⟨message1, -, hl⟩ := listen_of_requestTopics env uuid ec c w msg names h
    have hc : c.numListens + names.length > env.MAX_PUBSUB_LISTENS :=
      hfull (hdl, c) (List.mem_cons_self _ _)
    rw [if_pos hc] at hl
    have hrest := ih (fun e he => hfull e (List.mem_cons_of_mem _ he))
    simp [PubSub.tryListenLoop, hl, hrest]

theorem tryListenLoop_first_fit (env : Env) (uuid : String) (ec : Bool)
    (pre post : List (WebsocketHandle × PubSubClient)) (hdl : WebsocketHandle)
    (c : PubSubClient) (w : World) (msg : Json) (names : List String)
    (h : requestTopics msg = some names)
    (hfull : ∀ e ∈ pre, e.2.numListens + names.length > env.MAX_PUBSUB_LISTENS)
    (hfit : c.numListens + names.length ≤ env.MAX_PUBSUB_LISTENS) :
    ∃ message1, rj.set msg "nonce" (.str uuid) = some message1 ∧
      PubSub.tryListenLoop env uuid ec (pre ++ (hdl, c) :: post) w msg =
        some { ok := true, clients := pre ++ (hdl, c.accepted names) :: post,
               world := w.recorded c.handle uuid (env.stringify message1),
               message := message1 } := by
  induction pre with
  | nil =>
    obtain ⟨message1, hset, hl⟩ := listen_of_requestTopics env uuid ec c w msg names h
    have hc : ¬ c.numListens + names.length > env.MAX_PUBSUB_LISTENS := by omega
    rw [if_neg hc] at hl
    exact ⟨message1, hset, by simp [PubSub.tryListenLoop, hl]⟩
  | cons e rest ih =>
    obtain ⟨h0, c0⟩ := e
    obtain ⟨m0, -, hl⟩ := listen_of_requestTopics env uuid ec c0 w msg names h
    have hc : c0.numListens + names.length > env.MAX_PUBSUB_LISTENS :=
      hfull (h0, c0) (List.mem_cons_self _ _)
    rw [if_pos hc] at hl
    obtain ⟨message1, hset, hrest⟩ := ih (fun e he => hfull e (List.mem_cons_of_mem _ he))
    exact ⟨message1, hset, by simp [PubSub.tryListenLoop, hl, hrest]⟩

theorem first_not_full (env : Env) (n : Nat) (clients : List (WebsocketHandle × PubSubClient)) :
    (∀ e ∈ clients, e.2.numListens + n > env.MAX_PUBSUB_LISTENS) ∨
    ∃ pre hdl c post, clients = pre ++ (hdl, c) :: post ∧
      (∀ e ∈ pre, e.2.numListens + n > env.MAX_PUBSUB_LISTENS) ∧
      c.numListens + n ≤ env.MAX_PUBSUB_LISTENS := by
  induction clients with
  | nil => exact Or.inl (by simp)
  | cons e rest ih =>
    by_cases he : e.2.numListens + n > env.MAX_PUBSUB_LISTENS
    · rcases ih with hall | ⟨pre, hdl, c, post, hs, hp, hc⟩
      · left
        intro x hx
        rcases List.mem_cons.1 hx with rfl | hx
        · exact he
        · exact hall x hx
      · right
        refine ⟨e :: pre, hdl, c, post, by simp [hs], ?_, hc⟩
        intro x hx
        rcases List.mem_cons.1 hx with rfl | hx
        · exact he
        · exact hp x hx
    · right
      exact ⟨[], e.1, e.2, rest, rfl, by simp, by omega⟩

theorem onConnectionOpen_eq (env : Env) (ec : Bool) (hdl : WebsocketHandle) (p : PubSub)
    (w : World) :
    p.onConnectionOpen env ec hdl w =
      some ({ p with clients := mapEmplace hdl (PubSubClient.opened hdl ec) p.clients },
            { w.pinged hdl ec with events := w.events ++ [Event.connected] }) := by
  cases ec <;>
    simp [PubSub.onConnectionOpen, PubSubClient.start, PubSubClient.ping, PubSubClient.new,
      PubSubClient.send, assert, PubSubClient.opened, World.pinged]

theorem pool_isListeningToTopicLoop_iff (topic : String)
    (clients : List (WebsocketHandle × PubSubClient)) :
    PubSub.isListeningToTopicLoop topic clients = true ↔
      ∃ e ∈ clients, ∃ l ∈ e.2.listeners, l.topic = topic := by
  induction clients with
  | nil => simp [PubSub.isListeningToTopicLoop]
  | cons e rest ih =>
    obtain ⟨hdl, c⟩ := e
    unfold PubSub.isListeningToTopicLoop
    by_cases h : c.isListeningToTopic topic = true
    · have h2 := (isListeningToTopicLoop_iff topic c.listeners).1 h
      rw [if_pos h]
      exact ⟨fun _ => ⟨(hdl, c), List.mem_cons_self _ _, h2⟩, fun _ => rfl⟩
    · have h2 : ¬ ∃ l ∈ c.listeners, l.topic = topic :=
        fun hx => h ((isListeningToTopicLoop_iff topic c.listeners).2 hx)
      rw [if_neg h, ih]
      constructor
      · rintro ⟨e, he, hl⟩
        exact ⟨e, List.mem_cons_of_mem _ he, hl⟩
      · rintro ⟨e, he, hl⟩
        rcases List.mem_cons.1 he with rfl | he
        · exact absurd hl h2
        · exact ⟨e, he, hl⟩

theorem mem_keys_mapEmplace (hdl : WebsocketHandle) (client : PubSubClient)
    (clients : List (WebsocketHandle × PubSubClient)) (b : WebsocketHandle)
    (hb : b ∈ (mapEmplace hdl client clients).map Prod.fst) :
    b = hdl ∨ b ∈ clients.map Prod.fst := by
  induction clients with
  | nil => simpa [mapEmplace] using hb
  | cons e rest ih =>
    obtain ⟨h, c⟩ := e
    unfold mapEmplace at hb
    by_cases h1 : hdl < h
    · simp only [h1, if_true, List.map_cons, List.mem_cons] at hb
      simpa using hb
    · by_cases h2 : hdl = h
      · simp only [h1, h2, if_true, if_false] at hb
        exact Or.inr (by simpa using hb)
      · simp only [h1, h2, if_false, List.map_cons, List.mem_cons] at hb
        rcases hb with hb | hb
        · exact Or.inr (by simp [hb])
        · rcases ih hb with hb | hb
          · exact Or.inl hb
          · exact Or.inr (by simp [hb])

theorem mapEmplace_sorted (hdl : WebsocketHandle) (client : PubSubClient)
    (clients : List (WebsocketHandle × PubSubClient))
    (hs : (clients.map Prod.fst).Sorted (· < ·)) :
    ((mapEmplace hdl client clients).map Prod.fst).Sorted (· < ·) := by
  induction clients with
  | nil => simp [mapEmplace]
  | cons e rest ih =>
    obtain ⟨h, c⟩ := e
    simp only [List.map_cons, List.sorted_cons] at hs
    unfold mapEmplace
    by_cases h1 : hdl < h
    · simp only [h1, if_true, List.map_cons, List.sorted_cons]
      refine ⟨?_, hs⟩
      intro b hb
      rcases List.mem_cons.1 hb with rfl | hb
      · exact h1
      · exact lt_trans h1 (hs.1 b hb)
    · by_cases h2 : hdl = h
      · simp only [h1, h2, if_true, if_false, List.map_cons, List.sorted_cons]
        simpa using hs
      · simp only [h1, h2, if_false, List.map_cons, List.sorted_cons]
        refine ⟨?_, ih hs.2⟩
        intro b hb
        rcases mem_keys_mapEmplace hdl client rest b hb with hb | hb
        · rw [hb]
          exact lt_of_le_of_ne (not_lt.1 h1) (Ne.symm h2)
        · exact hs.1 b hb

/-! ## Theorems on `PubSub` -/

/-- C6 (prefix unlisten, frame emission): `unlistenPrefix(pre)` returns; when no
listener starts with `pre` the world is untouched (no frame, no entry in
`sentMessages`); when some do, exactly one frame is handed to the transport, the
serialization of an UNLISTEN message whose topic list is the removed topics in
listener order, and that same text is stored in `sentMessages`. Across the pool,
`unlistenAllModerationActions` returns and sends one such frame for each client
that had a matching listener and none for the others. -/
theorem unlistenPrefix_frames (env : Env) (uuid nonce : String) (ec : Bool)
    (c : PubSubClient) (w : World) (pre : String)
    (uuids : WebsocketHandle → String × String) (ecs : WebsocketHandle → Bool)
    (p : PubSub) :
    (∃ s, c.unlistenPrefix env uuid nonce ec w pre = some s ∧
      (removedTopics pre c.listeners = [] → s.2 = w) ∧
      (removedTopics pre c.listeners ≠ [] →
        s.2.sent = w.sent ++ [(c.handle,
          env.stringify (unlistenMessage (removedTopics pre c.listeners) nonce))] ∧
        s.2.sentMessages = mapAssign uuid
          (env.stringify (unlistenMessage (removedTopics pre c.listeners) nonce))
          w.sentMessages ∧
        s.2.timers = w.timers ∧ s.2.events = w.events)) ∧
    rj.getSafe (unlistenMessage (removedTopics pre c.listeners) nonce) "type" =
      some "UNLISTEN" ∧
    requestTopics (unlistenMessage (removedTopics pre c.listeners) nonce) =
      some (removedTopics pre c.listeners) ∧
    (∃ t, p.unlistenAllModerationActions env uuids ecs w = some t ∧
      t.2.sent = w.sent ++ (clientsWith "chat_moderator_actions." p.clients).map (fun e =>
        (e.2.handle, env.stringify (unlistenMessage
          (removedTopics "chat_moderator_actions." e.2.listeners) (uuids e.1).2))) ∧
      (clientsWith "chat_moderator_actions." p.clients).Sublist p.clients) := by
  refine ⟨⟨_, unlistenPrefix_eq env uuid nonce ec c w pre, ?_, ?_⟩, rfl,
    unlistenMessage_topics _ _, ?_⟩
  · intro h
    simp [h]
  · intro h
    simp [h, World.recorded]
  · obtain ⟨t, ht, -, ht2, -, -⟩ := unlistenAllLoop_eq env uuids ecs p.clients w
    refine ⟨({ p with clients := t.1 }, t.2), ?_, ht2, List.filter_sublist _⟩
    simp [PubSub.unlistenAllModerationActions, ht]

/-- C7 (atomic admission): for a request with the topics `names`, `PubSub::listen`
returns, and it does one of two things. If every client has
`numListens + N > MAX_PUBSUB_LISTENS` (in particular if there is no client), no
client and nothing in the world changes and the request document, as it was given,
is appended to the pending queue. Otherwise some client has room; the queue is
unchanged and exactly one entry of the client table is replaced, by that client
with all `N` topics added as listeners, while all other entries stay. -/
theorem listen_atomic (env : Env) (uuid : String) (ec : Bool) (p : PubSub) (w : World)
    (msg : Json) (names : List String) (h : requestTopics msg = some names) :
    ((∀ e ∈ p.clients, e.2.numListens + names.length > env.MAX_PUBSUB_LISTENS) ∧
      p.listen env uuid ec w msg =
        some ({ clients := p.clients, requests := p.requests ++ [msg] }, w)) ∨
    (∃ pre hdl c post message1, p.clients = pre ++ (hdl, c) :: post ∧
      c.numListens + names.length ≤ env.MAX_PUBSUB_LISTENS ∧
      rj.set msg "nonce" (.str uuid) = some message1 ∧
      p.listen env uuid ec w msg =
        some ({ clients := pre ++ (hdl, c.accepted names) :: post, requests := p.requests },
              w.recorded c.handle uuid (env.stringify message1))) := by
  rcases first_not_full env names.length p.clients with hall | ⟨pre, hdl, c, post, hs, hp, hc⟩
  · left
    refine ⟨hall, ?_⟩
    simp [PubSub.listen, PubSub.tryListen,
      tryListenLoop_all_full env uuid ec p.clients w msg names h hall]
  · right
    obtain ⟨message1, hset, ht⟩ :=
      tryListenLoop_first_fit env uuid ec pre post hdl c w msg names h hp hc
    refine ⟨pre, hdl, c, post, message1, hs, hc, hset, ?_⟩
    simp [PubSub.listen, PubSub.tryListen, hs, ht]

/-- Atomic admission on a pool of a full client and an empty one and a request for
one topic. -/
theorem listen_atomic_witness :
    ((∀ e ∈ [(1, { PubSubClient.new 1 with numListens := 50 }), (2, PubSubClient.new 2)],
        e.2.numListens + ["whispers.9"].length > sampleEnv.MAX_PUBSUB_LISTENS) ∧
      PubSub.listen sampleEnv "u1" false
          { clients := [(1, { PubSubClient.new 1 with numListens := 50 }),
              (2, PubSubClient.new 2)], requests := [] }
          World.empty (createListenMessage ["whispers.9"] "tok") =
        some ({ clients := [(1, { PubSubClient.new 1 with numListens := 50 }),
                  (2, PubSubClient.new 2)],
                requests := [] ++ [createListenMessage ["whispers.9"] "tok"] },
              World.empty)) ∨
    (∃ pre hdl c post message1,
      [(1, { PubSubClient.new 1 with numListens := 50 }), (2, PubSubClient.new 2)] =
        pre ++ (hdl, c) :: post ∧
      c.numListens + ["whispers.9"].length ≤ sampleEnv.MAX_PUBSUB_LISTENS ∧
      rj.set (createListenMessage ["whispers.9"] "tok") "nonce" (.str "u1") =
        some message1 ∧
      PubSub.listen sampleEnv "u1" false
          { clients := [(1, { PubSubClient.new 1 with numListens := 50 }),
              (2, PubSubClient.new 2)], requests := [] }
          World.empty (createListenMessage ["whispers.9"] "tok") =
        some ({ clients := pre ++ (hdl, c.accepted ["whispers.9"]) :: post,
                requests := [] },
              World.empty.recorded c.handle "u1" (sampleEnv.stringify message1))) :=
  listen_atomic sampleEnv "u1" false
    { clients := [(1, { PubSubClient.new 1 with numListens := 50 }),
        (2, PubSubClient.new 2)], requests := [] }
    World.empty (createListenMessage ["whispers.9"] "tok") ["whispers.9"] (by decide)

/-- C8 as stated fails: the connection under handle 2 is opened first, the one
under handle 1 second; both clients are empty. `tryListen` places the request on
the client under handle 1, the one created last, and leaves the one created first
untouched. -/
theorem tryListen_not_creation_order :
    ((PubSub.onConnectionOpen sampleEnv false 2 PubSub.new World.empty).bind fun s1 =>
      (PubSub.onConnectionOpen sampleEnv false 1 s1.1 s1.2).bind fun s2 =>
        (s2.1.tryListen sampleEnv "u1" false s2.2
            (createListenMessage ["whispers.9"] "tok")).map fun t =>
          (t.ok, t.clients.map fun e =>
            (e.1, e.2.numListens, e.2.listeners.map Listener.topic))) =
      some (true, [(1, 1, ["whispers.9"]), (2, 0, [])]) := by
  decide

/-- C8, amended (first-fit placement in table order): `tryListen` goes through the
client table in its iteration order and places the request on the first client
with `numListens + N <= MAX_PUBSUB_LISTENS`: if the entries before a client are
all too full and the client has room, `tryListen` returns `true`, that client gets
the topics, the entries before it and after it are unchanged, and the only effect
on the world is that client's one frame. The table order is the order of the
handles: `onConnectionOpen` puts the new client at the place of its handle, which
keeps the table ascending. -/
theorem tryListen_first_fit (env : Env) (uuid : String) (ec : Bool) (p : PubSub)
    (w : World) (msg : Json) (names : List String)
    (pre post : List (WebsocketHandle × PubSubClient)) (hdl : WebsocketHandle)
    (c : PubSubClient) (ec2 : Bool) (hdl2 : WebsocketHandle) (w2 : World)
    (h : requestTopics msg = some names)
    (hsplit : p.clients = pre ++ (hdl, c) :: post)
    (hfull : ∀ e ∈ pre, e.2.numListens + names.length > env.MAX_PUBSUB_LISTENS)
    (hfit : c.numListens + names.length ≤ env.MAX_PUBSUB_LISTENS) :
    (∃ message1, rj.set msg "nonce" (.str uuid) = some message1 ∧
      p.tryListen env uuid ec w msg =
        some { ok := true, clients := pre ++ (hdl, c.accepted names) :: post,
               world := w.recorded c.handle uuid (env.stringify message1),
               message := message1 }) ∧
    (∃ s, p.onConnectionOpen env ec2 hdl2 w2 = some s ∧
      s.1.clients = mapEmplace hdl2 (PubSubClient.opened hdl2 ec2) p.clients) ∧
    ((p.clients.map Prod.fst).Sorted (· < ·) →
      ((mapEmplace hdl2 (PubSubClient.opened hdl2 ec2) p.clients).map Prod.fst).Sorted
        (· < ·)) := by
  refine ⟨?_, ⟨_, onConnectionOpen_eq env ec2 hdl2 p w2, rfl⟩,
    mapEmplace_sorted hdl2 _ p.clients⟩
  obtain ⟨message1, hset, ht⟩ :=
    tryListenLoop_first_fit env uuid ec pre post hdl c w msg names h hfull hfit
  exact ⟨message1, hset, by simp [PubSub.tryListen, hsplit, ht]⟩

/-- First fit on a table of a full client followed by two empty ones: the request
goes to the second entry. -/
theorem tryListen_first_fit_witness :
    (∃ message1, rj.set (createListenMessage ["whispers.9"] "tok") "nonce" (.str "u1") =
        some message1 ∧
      PubSub.tryListen sampleEnv "u1" false
          { clients := [(1, { PubSubClient.new 1 with numListens := 50 })] ++
              (2, PubSubClient.new 2) :: [(3, PubSubClient.new 3)], requests := [] }
          World.empty (createListenMessage ["whispers.9"] "tok") =
        some { ok := true,
               clients := [(1, { PubSubClient.new 1 with numListens := 50 })] ++
                 (2, (PubSubClient.new 2).accepted ["whispers.9"]) ::
                   [(3, PubSubClient.new 3)],
               world := World.empty.recorded (PubSubClient.new 2).handle "u1"
                 (sampleEnv.stringify message1),
               message := message1 }) ∧
    (∃ s, PubSub.onConnectionOpen sampleEnv false 0
          { clients := [(1, { PubSubClient.new 1 with numListens := 50 })] ++
              (2, PubSubClient.new 2) :: [(3, PubSubClient.new 3)], requests := [] }
          World.empty = some s ∧
      s.1.clients = mapEmplace 0 (PubSubClient.opened 0 false)
        ([(1, { PubSubClient.new 1 with numListens := 50 })] ++
          (2, PubSubClient.new 2) :: [(3, PubSubClient.new 3)])) ∧
    ((([(1, { PubSubClient.new 1 with numListens := 50 })] ++
          (2, PubSubClient.new 2) :: [(3, PubSubClient.new 3)]).map Prod.fst).Sorted
        (· < ·) →
      ((mapEmplace 0 (PubSubClient.opened 0 false)
        ([(1, { PubSubClient.new 1 with numListens := 50 })] ++
          (2, PubSubClient.new 2) :: [(3, PubSubClient.new 3)])).map Prod.fst).Sorted
        (· < ·)) :=
  tryListen_first_fit sampleEnv "u1" false
    { clients := [(1, { PubSubClient.new 1 with numListens := 50 })] ++
        (2, PubSubClient.new 2) :: [(3, PubSubClient.new 3)], requests := [] }
    World.empty (createListenMessage ["whispers.9"] "tok") ["whispers.9"]
    [(1, { PubSubClient.new 1 with numListens := 50 })] [(3, PubSubClient.new 3)] 2
    (PubSubClient.new 2) false 0 World.empty (by decide) rfl (by decide) (by decide)

/-- C9 as stated fails: with room for two topics per connection, a client is
opened and filled with two topics, a request for the topic `c` is queued, and a
second connection is opened. The request is still in the queue, the second client
has no listener, and no client is listening to `c`. -/
theorem queued_request_not_drained :
    ((PubSub.onConnectionOpen smallEnv false 1 PubSub.new World.empty).bind fun s1 =>
      (s1.1.listen smallEnv "u1" false s1.2 (createListenMessage ["a", "b"] "tok")).bind
        fun s2 =>
        (s2.1.listen smallEnv "u2" false s2.2 (createListenMessage ["c"] "tok")).bind
          fun s3 =>
          (PubSub.onConnectionOpen smallEnv false 2 s3.1 s3.2).map fun s4 =>
            (s4.1.requests.map requestTopics,
             s4.1.clients.map (fun e =>
               (e.1, e.2.numListens, e.2.listeners.map Listener.topic)),
             s4.1.isListeningToTopic "c")) =
      some ([some ["c"]], [(1, 2, ["a", "b"]), (2, 0, [])], false) := by
  rfl

/-- C9, amended (no drain on connection open): with one client at full capacity, a
subscribe call with at least one topic is queued, unchanged, at the back of the
pending queue. When a connection is then opened, `onConnectionOpen` returns and
leaves the pending queue exactly as it was; the client it adds has no listeners
and `numListens = 0`, nothing is stored in `sentMessages`, and the only frame
handed to the transport is the new client's PING. -/
theorem queued_request_stays (env : Env) (uuid : String) (ec ec2 : Bool)
    (h hdl : WebsocketHandle) (c : PubSubClient) (q : List Json) (w w2 : World)
    (msg : Json) (names : List String) (p2 : PubSub)
    (hreq : requestTopics msg = some names) (hne : names ≠ [])
    (hfull : c.numListens = env.MAX_PUBSUB_LISTENS) :
    PubSub.listen env uuid ec { clients := [(h, c)], requests := q } w msg =
      some ({ clients := [(h, c)], requests := q ++ [msg] }, w) ∧
    (∃ s, p2.onConnectionOpen env ec2 hdl w2 = some s ∧
      s.1.requests = p2.requests ∧
      s.1.clients = mapEmplace hdl (PubSubClient.opened hdl ec2) p2.clients ∧
      (PubSubClient.opened hdl ec2).listeners = [] ∧
      (PubSubClient.opened hdl ec2).numListens = 0 ∧
      s.2.sentMessages = w2.sentMessages ∧
      s.2.sent = w2.sent ++ [(hdl, pingPayload)]) := by
  refine ⟨?_, ⟨_, onConnectionOpen_eq env ec2 hdl p2 w2, rfl, rfl, rfl, rfl, rfl, rfl⟩⟩
  have hlen : 0 < names.length := List.length_pos.2 hne
  have hall : ∀ e ∈ [(h, c)], e.2.numListens + names.length > env.MAX_PUBSUB_LISTENS := by
    intro e he
    rw [List.mem_singleton.1 he]
    show c.numListens + names.length > env.MAX_PUBSUB_LISTENS
    omega
  simp [PubSub.listen, PubSub.tryListen,
    tryListenLoop_all_full env uuid ec [(h, c)] w msg names hreq hall]

/-- The queue on a full client, a request for the topic `c` and a second
connection. -/
theorem queued_request_stays_witness :
    PubSub.listen smallEnv "u2" false
        { clients := [(1, { PubSubClient.new 1 with numListens := 2 })], requests := [] }
        World.empty (createListenMessage ["c"] "tok") =
      some ({ clients := [(1, { PubSubClient.new 1 with numListens := 2 })],
              requests := [] ++ [createListenMessage ["c"] "tok"] }, World.empty) ∧
    (∃ s, PubSub.onConnectionOpen smallEnv false 2
          { clients := [(1, { PubSubClient.new 1 with numListens := 2 })],
            requests := [createListenMessage ["c"] "tok"] } World.empty = some s ∧
      s.1.requests = [createListenMessage ["c"] "tok"] ∧
      s.1.clients = mapEmplace 2 (PubSubClient.opened 2 false)
        [(1, { PubSubClient.new 1 with numListens := 2 })] ∧
      (PubSubClient.opened 2 false).listeners = [] ∧
      (PubSubClient.opened 2 false).numListens = 0 ∧
      s.2.sentMessages = World.empty.sentMessages ∧
      s.2.sent = World.empty.sent ++ [(2, pingPayload)]) :=
  queued_request_stays smallEnv "u2" false false 1 2
    { PubSubClient.new 1 with numListens := 2 } [] World.empty World.empty
    (createListenMessage ["c"] "tok") ["c"]
    { clients := [(1, { PubSubClient.new 1 with numListens := 2 })],
      requests := [createListenMessage ["c"] "tok"] }
    (by decide) (by decide) rfl

/-- C10 (`PubSub::isListeningToTopic`): the result is `true` exactly if some client
of the pool has a listener whose topic equals the given one; a listener for
`whispers.9` does not make the pool listen to its beginning `whispers.`. The method
assigns nothing, so its embedding yields the result only. -/
theorem isListeningToTopic_iff (p : PubSub) (topic : String) :
    (p.isListeningToTopic topic = true ↔
      ∃ e ∈ p.clients, ∃ l ∈ e.2.listeners, l.topic = topic) ∧
    PubSub.isListeningToTopic
        { clients := [(1, (PubSubClient.new 1).accepted ["whispers.9"])], requests := [] }
        "whispers." = false := by
  exact ⟨pool_isListeningToTopicLoop_iff topic p.clients, by decide⟩

/-! ## Lemmas on the ingress path -/

theorem handleListenResponse_eq (msg : Json) (w : World) :
    PubSub.handleListenResponse msg w = w := by
  unfold PubSub.handleListenResponse
  cases rj.getSafe msg "error" with
  | none => rfl
  | some e => simp

theorem getSafe_isObject (msg : Json) (key value : String)
    (h : rj.getSafe msg key = some value) : msg.isObject = true := by
  cases msg <;> simp [rj.getSafe, Json.member?] at h
  rfl

theorem not_whispers_of_moderation (topic : String)
    (h : startsWith "chat_moderator_actions." topic = true) :
    startsWith "whispers." topic = false := by
  unfold startsWith at *
  have h1 : "chat_moderator_actions.".data = 'c' :: "hat_moderator_actions.".data := by decide
  have h2 : "whispers.".data = 'w' :: "hispers.".data := by decide
  rw [h1] at h
  rw [h2]
  cases htd : topic.data with
  | nil => rw [htd] at h; simp [List.isPrefixOf] at h
  | cons a as =>
    rw [htd] at h
    simp only [List.isPrefixOf, Bool.and_eq_true, beq_iff_eq] at h
    simp only [List.isPrefixOf, Bool.and_eq_false_imp, beq_iff_eq]
    intro hw
    rw [← h.1] at hw
    exact absurd hw (by decide)

/-- The method `handleMessageResponse` on a moderation topic, in closed form. -/
theorem moderation_message_eq (env : Env) (outerData : Json) (w : World)
    (topic payload : String) (msg : Json)
    (htopic : rj.getSafe outerData "topic" = some topic)
    (hstart : startsWith "chat_moderator_actions." topic = true)
    (hpayload : rj.getSafe outerData "message" = some payload)
    (hparse : env.parse payload = some msg) :
    PubSub.handleMessageResponse env outerData w =
      (assert env ((splitDot topic).length = 3)).bind fun _ =>
        (msg.member? "data").bind fun data =>
          match rj.getSafe data "moderation_action" with
          | none => some w
          | some moderationAction =>
            match PubSub.findHandler moderationAction (PubSub.moderationActionHandlers env) with
            | none => some w
            | some handler => ((splitDot topic)[2]?).bind fun roomID => handler data roomID w := by
  have hw := not_whispers_of_moderation topic hstart
  unfold PubSub.handleMessageResponse
  simp only [htopic, hpayload, hparse, hstart, hw]
  cases assert env (decide ((splitDot topic).length = 3)) with
  | none => rfl
  | some u =>
    cases hd : msg.member? "data" with
    | none => simp
    | some data =>
      cases ha : rj.getSafe data "moderation_action" with
      | none => simp [ha]
      | some action =>
        cases hh : PubSub.findHandler action (PubSub.moderationActionHandlers env) with
        | none => simp [ha, hh]
        | some handler =>
          cases (splitDot topic)[2]? <;> simp [ha, hh]

theorem findHandler_of_mem (name : String) (handler : PubSub.ModerationActionHandler)
    (table : List (String × PubSub.ModerationActionHandler))
    (hnd : (table.map Prod.fst).Nodup) (hmem : (name, handler) ∈ table) :
    PubSub.findHandler name table = some handler := by
  induction table with
  | nil => simp at hmem
  | cons e rest ih =>
    obtain ⟨k, v⟩ := e
    simp only [List.map_cons, List.nodup_cons] at hnd
    rcases List.mem_cons.1 hmem with heq | hmem
    · simp only [Prod.mk.injEq] at heq
      simp [PubSub.findHandler, heq.1, heq.2]
    · have hk : ¬ k = name := by
        intro hk
        apply hnd.1
        rw [hk]
        exact List.mem_map.2 ⟨(name, handler), hmem, rfl⟩
      simp [PubSub.findHandler, hk, ih hnd.2 hmem]

theorem findHandler_none_iff (name : String)
    (table : List (String × PubSub.ModerationActionHandler)) :
    PubSub.findHandler name table = none ↔ name ∉ table.map Prod.fst := by
  induction table with
  | nil => simp [PubSub.findHandler]
  | cons e rest ih =>
    obtain ⟨k, v⟩ := e
    by_cases hk : k = name
    · simp [PubSub.findHandler, hk]
    · have hk2 : ¬ name = k := fun e => hk e.symm
      simp [PubSub.findHandler, hk, hk2, ih]

theorem handler_names (env : Env) :
    (PubSub.moderationActionHandlers env).map Prod.fst =
      ["clear", "slowoff", "slow", "r9kbetaoff", "r9kbeta", "subscribersoff", "subscribers",
       "emoteonlyoff", "emoteonly", "unmod", "mod", "timeout", "ban", "unban",
       "untimeout"] := rfl

theorem handler_names_nodup (env : Env) :
    ((PubSub.moderationActionHandlers env).map Prod.fst).Nodup := by
  rw [handler_names]
  decide

theorem handler_names_iff (env : Env) (name : String) :
    name ∈ (PubSub.moderationActionHandlers env).map Prod.fst ↔ name ∈ actionNames := by
  rw [handler_names]
  simp only [actionNames, List.mem_cons, List.mem_singleton, List.not_mem_nil, or_false]
  tauto

theorem mapFindClient_append (hdl : WebsocketHandle) (c : PubSubClient)
    (pre post : List (WebsocketHandle × PubSubClient))
    (hpre : hdl ∉ pre.map Prod.fst) :
    PubSub.mapFindClient hdl (pre ++ (hdl, c) :: post) = some c := by
  induction pre with
  | nil => simp [PubSub.mapFindClient]
  | cons e rest ih =>
    obtain ⟨h, c0⟩ := e
    simp only [List.map_cons, List.mem_cons, not_or] at hpre
    have hne : ¬ h = hdl := fun e => hpre.1 e.symm
    simp [PubSub.mapFindClient, hne, ih hpre.2]

theorem mapSetClient_append (hdl : WebsocketHandle) (c c1 : PubSubClient)
    (pre post : List (WebsocketHandle × PubSubClient))
    (hpre : hdl ∉ pre.map Prod.fst) :
    PubSub.mapSetClient hdl c1 (pre ++ (hdl, c) :: post) = pre ++ (hdl, c1) :: post := by
  induction pre with
  | nil => simp [PubSub.mapSetClient]
  | cons e rest ih =>
    obtain ⟨h, c0⟩ := e
    simp only [List.map_cons, List.mem_cons, not_or] at hpre
    have hne : ¬ h = hdl := fun e => hpre.1 e.symm
    simp [PubSub.mapSetClient, hne, ih hpre.2]

theorem fire_stopped (env : Env) (ec : Bool) (callback : TimerCallback)
    (self : PubSubClient) (w : World) (hs : self.started = false) :
    self.fire env ec callback w = some (self, w) := by
  cases callback <;>
    simp [PubSubClient.fire, PubSubClient.pongCheckCallback,
      PubSubClient.pingAgainCallback, hs]


/-! ## Theorems on the ingress path and the heartbeat -/

/-- C11 (envelope soft failure): `onMessage` returns and leaves the pool (clients,
pending queue) and the world (`sentMessages`, frames, timers, events) as they were
whenever the payload does not parse, its root is not an object, it has no string
member `type`, it is a RESPONSE frame (whatever its `error` and `nonce`), or its
`type` is a string other than RESPONSE, MESSAGE and PONG. -/
theorem onMessage_soft (env : Env) (hdl : WebsocketHandle) (payload : String) (p : PubSub)
    (w : World)
    (h : env.parse payload = none ∨
      ∃ msg, env.parse payload = some msg ∧
        (msg.isObject = false ∨ rj.getSafe msg "type" = none ∨
          rj.getSafe msg "type" = some "RESPONSE" ∨
          ∃ t, rj.getSafe msg "type" = some t ∧ t ≠ "RESPONSE" ∧ t ≠ "MESSAGE" ∧
            t ≠ "PONG")) :
    p.onMessage env hdl payload w = some (p, w) := by
  unfold PubSub.onMessage
  rcases h with h | ⟨msg, hp, h⟩
  · simp [h]
  · simp only [hp]
    rcases h with h | h | h | ⟨t, ht, h1, h2, h3⟩
    · simp [h]
    · cases ho : msg.isObject <;> simp [h]
    · have ho := getSafe_isObject msg "type" _ h
      simp [h, ho, handleListenResponse_eq]
    · have ho := getSafe_isObject msg "type" _ ht
      simp [ht, ho, h1, h2, h3]


/-- The envelope soft failure on a RESPONSE frame that reports an error. -/
theorem onMessage_soft_witness :
    sampleEnv.parse (Json.render (.obj [("type", .str "RESPONSE"),
        ("error", .str "ERR_BADAUTH"), ("nonce", .str "u1")])) =
      some (.obj [("type", .str "RESPONSE"), ("error", .str "ERR_BADAUTH"),
        ("nonce", .str "u1")]) ∧
    PubSub.onMessage sampleEnv 1
        (Json.render (.obj [("type", .str "RESPONSE"), ("error", .str "ERR_BADAUTH"),
          ("nonce", .str "u1")]))
        { clients := [(1, PubSubClient.opened 1 false)], requests := [] } World.empty =
      some ({ clients := [(1, PubSubClient.opened 1 false)], requests := [] },
            World.empty) :=
  ⟨rfl, onMessage_soft sampleEnv 1 _ _ World.empty
    (Or.inr ⟨_, rfl, Or.inr (Or.inr (Or.inl rfl))⟩)⟩

/-- C12 as stated fails. With assertions, a moderation topic of two segments stops
the process at `assert(topicParts.length() == 3)`. Without assertions, a topic of
four segments goes on to the handler, which publishes an event. And a nested
document without a `data` member stops the process at the unchecked `msg["data"]`. -/
theorem moderation_message_hard_failure :
    PubSub.handleMessageResponse sampleEnv
        (messageData "chat_moderator_actions.1"
          (.obj [("data", .obj [("moderation_action", .str "clear")])]))
        World.empty = none ∧
    (PubSub.handleMessageResponse { sampleEnv with NDEBUG := true }
        (messageData "chat_moderator_actions.1.2.3"
          (.obj [("data", .obj [("moderation_action", .str "clear")])]))
        World.empty).map (fun w => w.events) = some [.chatCleared { roomID := "2" }] ∧
    PubSub.handleMessageResponse sampleEnv
        (messageData "chat_moderator_actions.1.2" (.obj [("no_data", .null)]))
        World.empty = none :=
  ⟨rfl, rfl, rfl⟩

/-- C12, amended (moderation MESSAGE, soft and hard failure): for a MESSAGE frame
whose topic starts with `chat_moderator_actions.` and whose nested document parses,
if the topic consists of exactly 3 dot-separated segments, the nested document has a
`data` member and `data` lacks a string `moderation_action`, then
`handleMessageResponse` returns, publishes no event and changes nothing; and if the
topic does not consist of exactly 3 segments, a build with assertions stops at
`assert(topicParts.length() == 3)`. -/
theorem moderation_message_soft (env : Env) (outerData : Json) (w : World)
    (topic payload : String) (msg : Json)
    (htopic : rj.getSafe outerData "topic" = some topic)
    (hstart : startsWith "chat_moderator_actions." topic = true)
    (hpayload : rj.getSafe outerData "message" = some payload)
    (hparse : env.parse payload = some msg) :
    (∀ data, (splitDot topic).length = 3 → msg.member? "data" = some data →
      rj.getSafe data "moderation_action" = none →
      PubSub.handleMessageResponse env outerData w = some w) ∧
    ((splitDot topic).length ≠ 3 → env.NDEBUG = false →
      PubSub.handleMessageResponse env outerData w = none) := by
  rw [moderation_message_eq env outerData w topic payload msg htopic hstart hpayload hparse]
  refine ⟨?_, ?_⟩
  · intro data hlen hdata haction
    simp [assert, hlen, hdata, haction]
  · intro hlen hnd
    simp [assert, hlen, hnd]

/-- The moderation soft failure on a payload that has `args` but no
`moderation_action`. -/
theorem moderation_message_soft_witness :
    PubSub.handleMessageResponse sampleEnv
        (messageData "chat_moderator_actions.1.2" (.obj [("data", .obj [("args", .arr [])])]))
        World.empty = some World.empty :=
  (moderation_message_soft sampleEnv
    (messageData "chat_moderator_actions.1.2" (.obj [("data", .obj [("args", .arr [])])]))
    World.empty "chat_moderator_actions.1.2"
    (Json.render (.obj [("data", .obj [("args", .arr [])])]))
    (.obj [("data", .obj [("args", .arr [])])]) rfl rfl rfl rfl).1
    (.obj [("args", .arr [])]) rfl rfl rfl

/-- C13 (whisper routing): for a MESSAGE frame whose topic starts with `whispers.`
and whose nested document parses, the nested `type` decides: `whisper_received`
publishes exactly one whisper-received event that carries the nested document,
`whisper_sent` exactly one whisper-sent event, `thread` nothing; a missing or
non-string `type` publishes nothing; any other string reaches `assert(false)`, which
stops a build with assertions and lets a build without them return with nothing
published. -/
theorem whisper_routing (env : Env) (outerData : Json) (w : World)
    (topic payload : String) (msg : Json)
    (htopic : rj.getSafe outerData "topic" = some topic)
    (hstart : startsWith "whispers." topic = true)
    (hpayload : rj.getSafe outerData "message" = some payload)
    (hparse : env.parse payload = some msg) :
    (rj.getSafe msg "type" = some "whisper_received" →
      PubSub.handleMessageResponse env outerData w =
        some (w.invoke (.whisperReceived msg))) ∧
    (rj.getSafe msg "type" = some "whisper_sent" →
      PubSub.handleMessageResponse env outerData w = some (w.invoke (.whisperSent msg))) ∧
    (rj.getSafe msg "type" = some "thread" →
      PubSub.handleMessageResponse env outerData w = some w) ∧
    (rj.getSafe msg "type" = none →
      PubSub.handleMessageResponse env outerData w = some w) ∧
    (∀ t, rj.getSafe msg "type" = some t → t ≠ "whisper_received" → t ≠ "whisper_sent" →
      t ≠ "thread" →
      PubSub.handleMessageResponse env outerData w = (assert env false).map fun _ => w) := by
  unfold PubSub.handleMessageResponse
  simp only [htopic, hpayload, hparse, hstart]
  refine ⟨?_, ?_, ?_, ?_, ?_⟩
  · intro h; simp [h]
  · intro h; simp [h]
  · intro h; simp [h]
  · intro h; simp [h]
  · intro t h h1 h2 h3
    simp [h, h1, h2, h3]
    cases assert env false <;> rfl


/-- The whisper routing on a received whisper. -/
theorem whisper_routing_witness :
    PubSub.handleMessageResponse sampleEnv
        (messageData "whispers.9"
          (.obj [("type", .str "whisper_received"), ("data", .str "hello")]))
        World.empty =
      some (World.empty.invoke (.whisperReceived
        (.obj [("type", .str "whisper_received"), ("data", .str "hello")]))) :=
  (whisper_routing sampleEnv
    (messageData "whispers.9"
      (.obj [("type", .str "whisper_received"), ("data", .str "hello")]))
    World.empty "whispers.9"
    (Json.render (.obj [("type", .str "whisper_received"), ("data", .str "hello")]))
    (.obj [("type", .str "whisper_received"), ("data", .str "hello")])
    rfl rfl rfl rfl).1 rfl

/-- C14 (moderation dispatch): the action table holds exactly the 15 names of the
spec, each once. For a moderation MESSAGE with a topic of three segments, a nested
`data` member and a string `moderation_action`: if the action is not in the table,
`handleMessageResponse` returns with nothing published and nothing changed (so for
`unknown_xyz`); if the table holds a handler under the action, the result is that
handler applied to the nested `data` and the third segment of the topic. -/
theorem moderation_dispatch (env : Env) (outerData : Json) (w : World)
    (topic payload : String) (msg data : Json) (action part0 part1 roomID : String)
    (htopic : rj.getSafe outerData "topic" = some topic)
    (hstart : startsWith "chat_moderator_actions." topic = true)
    (hpayload : rj.getSafe outerData "message" = some payload)
    (hparse : env.parse payload = some msg)
    (hparts : splitDot topic = [part0, part1, roomID])
    (hdata : msg.member? "data" = some data)
    (haction : rj.getSafe data "moderation_action" = some action) :
    (∀ name, name ∈ (PubSub.moderationActionHandlers env).map Prod.fst ↔
      name ∈ actionNames) ∧
    ((PubSub.moderationActionHandlers env).map Prod.fst).Nodup ∧
    (PubSub.moderationActionHandlers env).length = 15 ∧
    (action ∉ actionNames → PubSub.handleMessageResponse env outerData w = some w) ∧
    (∀ handler, (action, handler) ∈ PubSub.moderationActionHandlers env →
      PubSub.handleMessageResponse env outerData w = handler data roomID w) ∧
    PubSub.handleMessageResponse sampleEnv
        (messageData "chat_moderator_actions.1.2"
          (.obj [("data", .obj [("moderation_action", .str "unknown_xyz")])]))
        World.empty = some World.empty := by
  rw [moderation_message_eq env outerData w topic payload msg htopic hstart hpayload hparse]
  refine ⟨handler_names_iff env, handler_names_nodup env, rfl, ?_, ?_, rfl⟩
  · intro hnot
    have hnone : PubSub.findHandler action (PubSub.moderationActionHandlers env) = none :=
      (findHandler_none_iff action _).2 (fun hm => hnot ((handler_names_iff env action).1 hm))
    simp [assert, hparts, hdata, haction, hnone]
  · intro handler hmem
    have hsome := findHandler_of_mem action handler _ (handler_names_nodup env) hmem
    simp [assert, hparts, hdata, haction, hsome]

/-- The moderation dispatch on a `clear` action in room 2. -/
theorem moderation_dispatch_witness :
    PubSub.handleMessageResponse sampleEnv
        (messageData "chat_moderator_actions.1.2"
          (.obj [("data", .obj [("moderation_action", .str "clear")])]))
        World.empty =
      PubSub.handlers.clear (.obj [("moderation_action", .str "clear")]) "2" World.empty :=
  (moderation_dispatch sampleEnv
    (messageData "chat_moderator_actions.1.2"
      (.obj [("data", .obj [("moderation_action", .str "clear")])]))
    World.empty "chat_moderator_actions.1.2"
    (Json.render (.obj [("data", .obj [("moderation_action", .str "clear")])]))
    (.obj [("data", .obj [("moderation_action", .str "clear")])])
    (.obj [("moderation_action", .str "clear")]) "clear" "chat_moderator_actions" "1" "2"
    rfl rfl rfl rfl rfl rfl rfl).2.2.2.2.1 PubSub.handlers.clear
    (by simp [PubSub.moderationActionHandlers])

/-- C15 (PONG routing): when a PONG frame arrives on the handle `hdl` and the client
registered under `hdl` is awaiting a pong, `onMessage` returns; that client has
`awaitingPong = false` and is otherwise as before, every other entry of the client
table, the pending queue and the world (`sentMessages`, frames, timers, events) are
unchanged. -/
theorem pong_routing (env : Env) (hdl : WebsocketHandle) (payload : String) (p : PubSub)
    (w : World) (msg : Json) (c : PubSubClient)
    (pre post : List (WebsocketHandle × PubSubClient))
    (hparse : env.parse payload = some msg)
    (htype : rj.getSafe msg "type" = some "PONG")
    (hclients : p.clients = pre ++ (hdl, c) :: post)
    (hpre : hdl ∉ pre.map Prod.fst)
    (hpong : c.awaitingPong = true) :
    p.onMessage env hdl payload w =
      some ({ clients := pre ++ (hdl, { c with awaitingPong := false }) :: post,
              requests := p.requests }, w) := by
  have ho := getSafe_isObject msg "type" _ htype
  have hf := mapFindClient_append hdl c pre post hpre
  have hs := mapSetClient_append hdl c { c with awaitingPong := false } pre post hpre
  unfold PubSub.onMessage
  simp [hparse, htype, ho, hclients, hf, hs, assert, PubSubClient.handlePong, hpong]


/-- The PONG routing on a pool of two clients that both await a pong. -/
theorem pong_routing_witness :
    PubSub.onMessage sampleEnv 2 (Json.render (.obj [("type", .str "PONG")]))
        { clients := [(1, PubSubClient.opened 1 false)] ++
            (2, PubSubClient.opened 2 false) :: [], requests := [] } World.empty =
      some ({ clients := [(1, PubSubClient.opened 1 false)] ++
                (2, { PubSubClient.opened 2 false with awaitingPong := false }) :: [],
              requests := [] }, World.empty) :=
  pong_routing sampleEnv 2 (Json.render (.obj [("type", .str "PONG")]))
    { clients := [(1, PubSubClient.opened 1 false)] ++
        (2, PubSubClient.opened 2 false) :: [], requests := [] }
    World.empty (.obj [("type", .str "PONG")]) (PubSubClient.opened 2 false)
    [(1, PubSubClient.opened 1 false)] [] rfl rfl rfl (by decide) rfl

/-- C16 (heartbeat round trip): on a client that is not started and a transport
whose send succeeds, `start` returns, hands exactly one PING frame to the transport,
sets `awaitingPong` and arms the 15 second timer and the 5 minute timer;
`handlePong` then clears `awaitingPong`; and the 15 second callback leaves every
client it runs on, and the world, as they are, so that `awaitingPong` is still set
after the deadline when no PONG came. -/
theorem heartbeat_round_trip (env : Env) (c : PubSubClient) (w : World)
    (hs : c.started = false) :
    c.start env false w =
      some ({ c with started := true, awaitingPong := true },
            { w with sent := w.sent ++ [(c.handle, pingPayload)],
                     timers := w.timers ++ [Timer.mk c.handle 15 .pongCheck,
                                            Timer.mk c.handle 300 .pingAgain] }) ∧
    ({ c with started := true, awaitingPong := true } : PubSubClient).handlePong env =
      some { c with started := true, awaitingPong := false } ∧
    (∀ ec self w2, PubSubClient.fire env ec .pongCheck self w2 = some (self, w2)) := by
  refine ⟨?_, ?_, ?_⟩
  · simp [PubSubClient.start, PubSubClient.ping, PubSubClient.send, assert, hs]
  · simp [PubSubClient.handlePong, assert]
  · intro ec self w2
    simp [PubSubClient.fire, PubSubClient.pongCheckCallback]


/-- The heartbeat round trip on a fresh client. -/
theorem heartbeat_round_trip_witness :
    (PubSubClient.new 7).start sampleEnv false World.empty =
      some ({ PubSubClient.new 7 with started := true, awaitingPong := true },
            { World.empty with sent := World.empty.sent ++ [(7, pingPayload)],
                               timers := World.empty.timers ++
                                 [Timer.mk 7 15 .pongCheck, Timer.mk 7 300 .pingAgain] }) :=
  (heartbeat_round_trip sampleEnv (PubSubClient.new 7) World.empty rfl).1

/-- C17 (stop cancels the heartbeat): `stop` on a started client returns and clears
`started`; on the stopped client every timer callback, and every sequence of them,
returns with the client and the world unchanged: no frame (so no PING) is handed to
the transport and no timer is armed. -/
theorem stop_cancels_heartbeat (env : Env) (c : PubSubClient)
    (hs : c.started = true) :
    c.stop env = some { c with started := false } ∧
    (∀ ec callback w,
      PubSubClient.fire env ec callback { c with started := false } w =
        some ({ c with started := false }, w)) ∧
    (∀ fires w, fireAll env fires ({ c with started := false }, w) =
        some ({ c with started := false }, w)) := by
  refine ⟨?_, ?_, ?_⟩
  · simp [PubSubClient.stop, assert, hs]
  · intro ec callback w
    exact fire_stopped env ec callback _ w rfl
  · intro fires w
    induction fires with
    | nil => rfl
    | cons f rest ih =>
      obtain ⟨callback, ec⟩ := f
      simp [fireAll, fire_stopped env ec callback { c with started := false } w rfl, ih]


/-- The stopped heartbeat on an opened client: both timers fire after `stop`. -/
theorem stop_cancels_heartbeat_witness :
    fireAll sampleEnv [(.pongCheck, false), (.pingAgain, false)]
        ({ PubSubClient.opened 7 false with started := false }, World.empty) =
      some ({ PubSubClient.opened 7 false with started := false }, World.empty) :=
  (stop_cancels_heartbeat sampleEnv (PubSubClient.opened 7 false) rfl).2.2
    [(.pongCheck, false), (.pingAgain, false)] World.empty

/-- C18 (timeout decode): when `args` is an array of three strings
`[name, duration, reason]`, the `timeout` handler publishes exactly one UserBanned
event with `target.name = name`, `duration` the value `toUInt` gives for the
duration text, and that reason; with exactly two strings the event is published
with the reason left empty; with fewer than two elements, or with a non-string among
`args[0]`, `args[1]`, `args[2]`, nothing is published. The payload with
`["baduser","600","spam"]` gives `target.name = "baduser"`, `duration = 600`,
`reason = "spam"`. -/
theorem timeout_decode (env : Env) (data : Json) (roomID : String) (w : World) :
    (∀ name duration reason,
      getArgs data = some [.str name, .str duration, .str reason] →
      PubSub.handlers.timeout env data roomID w =
        some (w.invoke (bannedEvent env data roomID name reason (some (env.toUInt duration))))) ∧
    (∀ name duration,
      getArgs data = some [.str name, .str duration] →
      PubSub.handlers.timeout env data roomID w =
        some (w.invoke (bannedEvent env data roomID name "" (some (env.toUInt duration))))) ∧
    (∀ args, getArgs data = some args → args.length < 2 →
      PubSub.handlers.timeout env data roomID w = some w) ∧
    (∀ args i a, getArgs data = some args → i < 3 → args[i]? = some a →
      a.getString? = none → PubSub.handlers.timeout env data roomID w = some w) ∧
    (PubSub.handlers.timeout sampleEnv
        (.obj [("moderation_action", .str "timeout"),
               ("args", .arr [.str "baduser", .str "600", .str "spam"])])
        "2" World.empty).map (fun w => w.events) =
      some [.userBanned { roomID := "2", target := { name := "baduser" },
                          reason := "spam", duration := some 600 }] := by
  refine ⟨?_, ?_, ?_, ?_, rfl⟩
  · intro name duration reason h
    simp [PubSub.handlers.timeout, h, rj.getSafeValue, Json.getString?, bannedEvent]
  · intro name duration h
    simp [PubSub.handlers.timeout, h, rj.getSafeValue, Json.getString?, bannedEvent]
  · intro args h hl
    simp [PubSub.handlers.timeout, h, hl]
  · intro args i a h hi ha hs
    by_cases hl : args.length < 2
    · simp [PubSub.handlers.timeout, h, hl]
    · match args, ha, hl with
      | a0 :: a1 :: rest, ha, _ =>
        match i, hi, ha with
        | 0, _, ha =>
          simp at ha; subst ha
          simp [PubSub.handlers.timeout, h, rj.getSafeValue, hs]
        | 1, _, ha =>
          simp at ha; subst ha
          cases h0 : a0.getString? <;>
            simp [PubSub.handlers.timeout, h, rj.getSafeValue, hs, h0]
        | 2, _, ha =>
          cases rest with
          | nil => simp at ha
          | cons a2 more =>
            simp at ha; subst ha
            cases h0 : a0.getString? <;> cases h1 : a1.getString? <;>
              simp [PubSub.handlers.timeout, h, rj.getSafeValue, hs, h0, h1]
      | [_], _, hl => simp at hl
      | [], ha, _ => simp at ha


/-- C19 (ban decode): the `ban` handler publishes exactly one UserBanned event, with
`target.name = args[0]` and `reason = args[1]` (empty when `args` has one element),
if `args` is an array with at least one element, `args[0]` is a string and `args[1]`,
when present, is a string; in every other case it returns with nothing published
and nothing changed, so for `{"moderation_action":"ban","args":[]}`. -/
theorem ban_decode (env : Env) (data : Json) (roomID : String) (w : World) :
    (∀ name, getArgs data = some [.str name] →
      PubSub.handlers.ban env data roomID w =
        some (w.invoke (bannedEvent env data roomID name "" none))) ∧
    (∀ name reason more, getArgs data = some (.str name :: .str reason :: more) →
      PubSub.handlers.ban env data roomID w =
        some (w.invoke (bannedEvent env data roomID name reason none))) ∧
    (banArgsOk data = false → PubSub.handlers.ban env data roomID w = some w) ∧
    (banArgsOk data = true ↔
      ∃ action, PubSub.handlers.ban env data roomID w =
        some (w.invoke (.userBanned action))) ∧
    PubSub.handlers.ban sampleEnv
        (.obj [("moderation_action", .str "ban"), ("args", .arr [])]) "2" World.empty =
      some World.empty := by
  have h1 : ∀ name, getArgs data = some [.str name] →
      PubSub.handlers.ban env data roomID w =
        some (w.invoke (bannedEvent env data roomID name "" none)) := by
    intro name h
    simp [PubSub.handlers.ban, h, rj.getSafeValue, Json.getString?, bannedEvent]
  have h2 : ∀ name reason more, getArgs data = some (.str name :: .str reason :: more) →
      PubSub.handlers.ban env data roomID w =
        some (w.invoke (bannedEvent env data roomID name reason none)) := by
    intro name reason more h
    simp [PubSub.handlers.ban, h, rj.getSafeValue, Json.getString?, bannedEvent]
  have h3 : banArgsOk data = false → PubSub.handlers.ban env data roomID w = some w := by
    intro h
    unfold banArgsOk at h
    cases hg : getArgs data with
    | none => simp [PubSub.handlers.ban, hg]
    | some args =>
      rw [hg] at h
      match args, h with
      | [], _ => simp [PubSub.handlers.ban, hg]
      | a0 :: rest, h =>
        cases a0 with
        | str s =>
          match rest, h with
          | [], h => simp at h
          | a1 :: more, h =>
            cases a1 with
            | str r => simp at h
            | _ => simp [PubSub.handlers.ban, hg, rj.getSafeValue, Json.getString?]
        | _ => simp [PubSub.handlers.ban, hg, rj.getSafeValue, Json.getString?]
  have hne : ∀ e, some (w.invoke e) ≠ some w := by
    intro e h
    have h' := congrArg (fun o => o.map fun x => x.events.length) h
    simp [World.invoke] at h'
  refine ⟨h1, h2, h3, ?_, rfl⟩
  constructor
  · intro h
    unfold banArgsOk at h
    cases hg : getArgs data with
    | none => simp [hg] at h
    | some args =>
      rw [hg] at h
      match args, h, hg with
      | [.str name], _, hg => exact ⟨_, h1 name hg⟩
      | .str name :: .str reason :: more, _, hg => exact ⟨_, h2 name reason more hg⟩
  · rintro ⟨action, ha⟩
    by_contra hb
    rw [Bool.not_eq_true] at hb
    rw [h3 hb] at ha
    exact hne _ ha.symm


/-- The handlers that publish inside their `try` block, and `slow`, publish nothing
when `args` is absent or not an array. -/
theorem no_event_without_args (env : Env) (ms : List (String × Json)) (roomID : String)
    (w : World) (h : getArgs (.obj ms) = none) :
    PubSub.handlers.slow env (.obj ms) roomID w = some w ∧
    PubSub.handlers.ban env (.obj ms) roomID w = some w ∧
    PubSub.handlers.timeout env (.obj ms) roomID w = some w ∧
    PubSub.handlers.unban env (.obj ms) roomID w = some w ∧
    PubSub.handlers.untimeout env (.obj ms) roomID w = some w := by
  refine ⟨?_, ?_, ?_, ?_, ?_⟩
  · unfold getArgs at h
    cases hm : (Json.obj ms).member? "args" with
    | none =>
      have hf : Json.findMember "args" ms = none := hm
      simp [PubSub.handlers.slow, Json.hasMember?, hf]
    | some args =>
      have hf : Json.findMember "args" ms = some args := hm
      cases args <;>
        simp [hm] at h <;>
        simp [PubSub.handlers.slow, Json.hasMember?, Json.member?, hf, Json.isArray]
  · simp [PubSub.handlers.ban, h]
  · simp [PubSub.handlers.timeout, h]
  · simp [PubSub.handlers.unban, h]
  · simp [PubSub.handlers.untimeout, h]

/-- The handlers `mod` and `unmod` publish when `args` is absent or not an array:
the event carries the target that `getTargetUser` read. -/
theorem mod_event_without_args (env : Env) (data : Json) (roomID : String) (w : World)
    (h : getArgs data = none) :
    PubSub.handlers.mod env data roomID w =
      some (w.invoke (.moderationStateChanged
        { roomID := roomID, target := env.getTargetUser data {}, modded := true })) ∧
    PubSub.handlers.unmod env data roomID w =
      some (w.invoke (.moderationStateChanged
        { roomID := roomID, target := env.getTargetUser data {}, modded := false })) := by
  constructor
  · simp [PubSub.handlers.mod, h]
  · simp [PubSub.handlers.unmod, h]

/-- C20 (missing args yields no event), evaluated on the code: on the payload
`{"moderation_action":"mod"}`, which has no `args`, the `mod` handler publishes a
ModerationStateChanged event with an empty target name, and so does `unmod` on a
payload whose `args` is a string; `slow`, `ban`, `timeout`, `unban` and `untimeout`
publish nothing on the payload without `args`. -/
theorem mod_publishes_without_args :
    PubSub.handlers.mod sampleEnv (.obj [("moderation_action", .str "mod")]) "2"
        World.empty =
      some (World.empty.invoke
        (.moderationStateChanged { roomID := "2", modded := true })) ∧
    PubSub.handlers.unmod sampleEnv
        (.obj [("moderation_action", .str "unmod"), ("args", .str "x")]) "2" World.empty =
      some (World.empty.invoke
        (.moderationStateChanged { roomID := "2", modded := false })) ∧
    PubSub.handlers.slow sampleEnv (.obj [("moderation_action", .str "mod")]) "2"
        World.empty = some World.empty ∧
    PubSub.handlers.ban sampleEnv (.obj [("moderation_action", .str "mod")]) "2"
        World.empty = some World.empty ∧
    PubSub.handlers.timeout sampleEnv (.obj [("moderation_action", .str "mod")]) "2"
        World.empty = some World.empty ∧
    PubSub.handlers.unban sampleEnv (.obj [("moderation_action", .str "mod")]) "2"
        World.empty = some World.empty ∧
    PubSub.handlers.untimeout sampleEnv (.obj [("moderation_action", .str "mod")]) "2"
        World.empty = some World.empty :=
  ⟨rfl, rfl, rfl, rfl, rfl, rfl, rfl⟩

/-! ## Lemmas on the handlers, the connection table and the emoji table -/

theorem invoke_ne (w : World) (e : Event) : some (w.invoke e) ≠ some w := by
  intro h
  have h2 := congrArg (fun o => o.map fun x => x.events.length) h
  simp [World.invoke] at h2

theorem slow_eq (env : Env) (ms : List (String × Json)) (roomID : String) (w : World) :
    PubSub.handlers.slow env (.obj ms) roomID w =
      match getArgs (.obj ms) with
      | some (.str s :: _) => some (w.invoke (slowEvent roomID (env.toUInt s)))
      | _ => some w := by
  unfold getArgs
  cases hm : (Json.obj ms).member? "args" with
  | none =>
    have hf : Json.findMember "args" ms = none := hm
    simp [PubSub.handlers.slow, Json.hasMember?, hf]
  | some args =>
    have hf : Json.findMember "args" ms = some args := hm
    cases args with
    | arr elems =>
      cases elems with
      | nil =>
        simp [PubSub.handlers.slow, Json.hasMember?, Json.member?, hf, Json.isArray,
          Json.getArray?]
      | cons a rest =>
        cases a <;>
          simp [PubSub.handlers.slow, Json.hasMember?, Json.member?, hf, Json.isArray,
            Json.getArray?, Json.isString, Json.getString?, slowEvent]
    | _ =>
      simp [PubSub.handlers.slow, Json.hasMember?, Json.member?, hf, Json.isArray]

theorem mapEmplace_new (hdl : WebsocketHandle) (client : PubSubClient)
    (clients : List (WebsocketHandle × PubSubClient))
    (hnew : hdl ∉ clients.map Prod.fst) :
    ∃ pre post, clients = pre ++ post ∧
      mapEmplace hdl client clients = pre ++ (hdl, client) :: post := by
  induction clients with
  | nil => exact ⟨[], [], rfl, rfl⟩
  | cons e rest ih =>
    obtain ⟨h, c⟩ := e
    simp only [List.map_cons, List.mem_cons, not_or] at hnew
    by_cases h1 : hdl < h
    · exact ⟨[], (h, c) :: rest, rfl, by simp [mapEmplace, h1]⟩
    · obtain ⟨pre, post, hsplit, hem⟩ := ih hnew.2
      refine ⟨(h, c) :: pre, post, by simp [hsplit], ?_⟩
      simp [mapEmplace, h1, hnew.1, hem]

theorem mapErase_append (hdl : WebsocketHandle) (c : PubSubClient)
    (pre post : List (WebsocketHandle × PubSubClient))
    (hpre : hdl ∉ pre.map Prod.fst) :
    PubSub.mapErase hdl (pre ++ (hdl, c) :: post) = pre ++ post := by
  induction pre with
  | nil => simp [PubSub.mapErase]
  | cons e rest ih =>
    obtain ⟨h, c0⟩ := e
    simp only [List.map_cons, List.mem_cons, not_or] at hpre
    have hne : ¬ h = hdl := fun e => hpre.1 e.symm
    simp [PubSub.mapErase, hne, ih hpre.2]

open EmoteManager

variable {E : Type}

/-- The inner loop in closed form, when the emoji fits into the text. -/
theorem matchTail_eq (text : List QChar) (pos : Nat) (vs : List QChar)
    (hfit : pos + vs.length ≤ text.length) :
    matchTail text pos vs = some (decide ((text.drop pos).take vs.length = vs)) := by
  induction vs generalizing pos with
  | nil => simp [matchTail]
  | cons v vs ih =>
    simp only [List.length_cons] at hfit
    have hpos : pos < text.length := by omega
    have hget : text[pos]? = some text[pos] := List.getElem?_eq_getElem hpos
    have hdrop : text.drop pos = text[pos] :: text.drop (pos + 1) :=
      List.drop_eq_getElem_cons hpos
    have hrec := ih (pos + 1) (by omega)
    rw [matchTail, hget, hdrop]
    simp only [Option.bind_eq_bind, Option.some_bind, List.length_cons, List.take_succ_cons,
      List.cons.injEq]
    by_cases hv : text[pos] = v
    · simp [hv, hrec]
    · simp [hv]

theorem findMatch_cons (text : List QChar) (i : Nat) (emoji : EmojiData E)
    (rest : List (EmojiData E)) (hi : i ≤ text.length) :
    findMatch text i (emoji :: rest) =
      if text.length - i < emoji.value.length then findMatch text i rest
      else (matchTail text (i + 1) emoji.value.tail).bind fun isMatch =>
        if isMatch then some (some emoji) else findMatch text i rest := by
  rw [findMatch]
  by_cases h : text.length - i < emoji.value.length
  · have h2 : (emoji.value.length : Int) - 1 > (text.length : Int) - i - 1 := by omega
    simp [h, h2]
  · have h2 : ¬ (emoji.value.length : Int) - 1 > (text.length : Int) - i - 1 := by omega
    simp only [h, h2, if_false]
    cases matchTail text (i + 1) emoji.value.tail with
    | none => rfl
    | some b => cases b <;> rfl

/-- The candidate loop never leaves the text: it returns for every position inside
the text. -/
theorem findMatch_returns (text : List QChar) (i : Nat) (bucket : List (EmojiData E))
    (hi : i < text.length) : (findMatch text i bucket).isSome = true := by
  induction bucket with
  | nil => rfl
  | cons x rest ih =>
    rw [findMatch_cons text i x rest (Nat.le_of_lt hi)]
    by_cases hlong : text.length - i < x.value.length
    · rw [if_pos hlong]; exact ih
    · rw [if_neg hlong]
      have hfit : (i + 1) + x.value.tail.length ≤ text.length := by
        rw [List.length_tail]
        omega
      rw [matchTail_eq text (i + 1) x.value.tail hfit]
      simp only [Option.some_bind]
      split
      · rfl
      · exact ih

/-- The bound on the iterations is never reached: `parseLoop` returns whenever the
bound exceeds the number of positions left. -/
theorem parseLoop_returns (table : FirstByteMap E) (dflt : E) (text : List QChar)
    (fuel i last : Nat) (words : List (E × List QChar))
    (hfuel : text.length - i < fuel) :
    (parseLoop table dflt text fuel i last words).isSome = true := by
  induction fuel generalizing i last words with
  | zero => omega
  | succ fuel ih =>
    rw [parseLoop]
    by_cases hi : i < text.length
    · have hget : text[i]? = some text[i] := List.getElem?_eq_getElem hi
      have hnext : text.length - (i + 1) < fuel := by omega
      simp only [hi, if_true, hget, Option.bind_eq_bind, Option.some_bind]
      split
      · exact ih _ _ _ hnext
      · split
        · exact ih _ _ _ hnext
        · rename_i possibleEmojis _
          have hf := findMatch_returns text i possibleEmojis hi
          cases hfm : findMatch text i possibleEmojis with
          | none => rw [hfm] at hf; simp at hf
          | some r =>
            simp only [Option.some_bind]
            cases r with
            | none => exact ih _ _ _ hnext
            | some m =>
              simp only
              split
              · exact ih _ _ _ hnext
              · exact ih _ _ _ (by omega)
    · simp [hi]

/-- The method `parseEmojis` returns on every table, every text and every
`parsedWords`. -/
theorem parseEmojis_returns (table : FirstByteMap E) (dflt : E)
    (parsedWords : List (E × List QChar)) (text : List QChar) :
    (parseEmojis table dflt parsedWords text).isSome = true := by
  unfold parseEmojis
  have h := parseLoop_returns table dflt text (text.length + 1) 0 0 parsedWords (by omega)
  cases hp : parseLoop table dflt text (text.length + 1) 0 0 parsedWords with
  | none => rw [hp] at h; simp at h
  | some r =>
    simp only [Option.bind_eq_bind, Option.some_bind]
    split <;> rfl

/-! ### The conversion of the examples -/

/-- C21 (mode and clear decode): whatever the payload, `clear` publishes exactly one
ChatCleared event and `slowoff`, `r9kbeta`, `r9kbetaoff`, `subscribers`,
`subscribersoff`, `emoteonly`, `emoteonlyoff` publish exactly one ModeChanged event
with (Slow, Off), (R9K, On), (R9K, Off), (SubscribersOnly, On),
(SubscribersOnly, Off), (EmoteOnly, On), (EmoteOnly, Off). On a payload object,
`slow` publishes exactly one ModeChanged event with Slow, On and the duration
`toUInt` reads from `args[0]` if `args` is a non-empty array whose first element is a
string, and otherwise it returns with nothing published. -/
theorem mode_and_clear_decode (env : Env) (data : Json) (ms : List (String × Json))
    (roomID : String) (w : World) :
    PubSub.handlers.clear data roomID w =
      some (w.invoke (.chatCleared { roomID := roomID })) ∧
    PubSub.handlers.slowoff data roomID w =
      some (w.invoke (.modeChanged { roomID := roomID, mode := .Slow, state := .Off })) ∧
    PubSub.handlers.r9kbeta data roomID w =
      some (w.invoke (.modeChanged { roomID := roomID, mode := .R9K, state := .On })) ∧
    PubSub.handlers.r9kbetaoff data roomID w =
      some (w.invoke (.modeChanged { roomID := roomID, mode := .R9K, state := .Off })) ∧
    PubSub.handlers.subscribers data roomID w =
      some (w.invoke
        (.modeChanged { roomID := roomID, mode := .SubscribersOnly, state := .On })) ∧
    PubSub.handlers.subscribersoff data roomID w =
      some (w.invoke
        (.modeChanged { roomID := roomID, mode := .SubscribersOnly, state := .Off })) ∧
    PubSub.handlers.emoteonly data roomID w =
      some (w.invoke (.modeChanged { roomID := roomID, mode := .EmoteOnly, state := .On })) ∧
    PubSub.handlers.emoteonlyoff data roomID w =
      some (w.invoke (.modeChanged { roomID := roomID, mode := .EmoteOnly, state := .Off })) ∧
    (∀ s rest, getArgs (.obj ms) = some (.str s :: rest) →
      PubSub.handlers.slow env (.obj ms) roomID w =
        some (w.invoke (slowEvent roomID (env.toUInt s)))) ∧
    (firstArgIsString (.obj ms) = false →
      PubSub.handlers.slow env (.obj ms) roomID w = some w) ∧
    (firstArgIsString (.obj ms) = true ↔
      ∃ action, PubSub.handlers.slow env (.obj ms) roomID w =
        some (w.invoke (.modeChanged action))) := by
  refine ⟨rfl, rfl, rfl, rfl, rfl, rfl, rfl, rfl, ?_, ?_, ?_⟩
  · intro s rest h
    rw [slow_eq, h]
  · intro h
    rw [slow_eq]
    unfold firstArgIsString at h
    split <;> simp_all
  · rw [slow_eq]
    unfold firstArgIsString
    split
    · rename_i s rest hs
      simp only [true_iff]
      exact ⟨_, rfl⟩
    · rename_i hno
      constructor
      · intro h
        simp at h
      · rintro ⟨action, ha⟩
        exact absurd ha.symm (invoke_ne w _)


/-- C22 (single-target decode): when `args` is an array whose first element is the
string `s`, `mod` publishes exactly one ModerationStateChanged event with
`target.name = s` and `modded = true`, `unmod` the same with `modded = false`,
`unban` exactly one UserUnbanned event with `target.name = s` and `previousState`
Banned, `untimeout` the same with TimedOut; when `args` is the empty array or
`args[0]` is not a string, each of the four returns with nothing published. -/
theorem single_target_decode (env : Env) (data : Json) (roomID : String) (w : World) :
    (∀ s rest, getArgs data = some (.str s :: rest) →
      PubSub.handlers.mod env data roomID w =
        some (w.invoke (moddedEvent env data roomID s true)) ∧
      PubSub.handlers.unmod env data roomID w =
        some (w.invoke (moddedEvent env data roomID s false)) ∧
      PubSub.handlers.unban env data roomID w =
        some (w.invoke (unbannedEvent env data roomID s .Banned)) ∧
      PubSub.handlers.untimeout env data roomID w =
        some (w.invoke (unbannedEvent env data roomID s .TimedOut))) ∧
    (getArgs data = some [] →
      PubSub.handlers.mod env data roomID w = some w ∧
      PubSub.handlers.unmod env data roomID w = some w ∧
      PubSub.handlers.unban env data roomID w = some w ∧
      PubSub.handlers.untimeout env data roomID w = some w) ∧
    (∀ a rest, getArgs data = some (a :: rest) → a.getString? = none →
      PubSub.handlers.mod env data roomID w = some w ∧
      PubSub.handlers.unmod env data roomID w = some w ∧
      PubSub.handlers.unban env data roomID w = some w ∧
      PubSub.handlers.untimeout env data roomID w = some w) := by
  refine ⟨?_, ?_, ?_⟩
  · intro s rest h
    simp [PubSub.handlers.mod, PubSub.handlers.unmod, PubSub.handlers.unban,
      PubSub.handlers.untimeout, h, rj.getSafeValue, Json.getString?, moddedEvent,
      unbannedEvent]
  · intro h
    simp [PubSub.handlers.mod, PubSub.handlers.unmod, PubSub.handlers.unban,
      PubSub.handlers.untimeout, h]
  · intro a rest h ha
    simp [PubSub.handlers.mod, PubSub.handlers.unmod, PubSub.handlers.unban,
      PubSub.handlers.untimeout, h, rj.getSafeValue, ha]


/-- C24 (connection lifecycle): `onConnectionOpen(hdl)` for a handle that is not in
the table returns and puts exactly one client under `hdl` into the table; that
client is started, has no listeners and `numListens = 0`, and the other entries keep
their place and state. `onConnectionClose(hdl2)` for a handle with a started client
returns and removes exactly that entry; the other entries and the pending queue are
unchanged, so a topic that only the closed client listened to is subscribed nowhere
afterwards. -/
theorem connection_lifecycle (env : Env) (ec : Bool) (hdl hdl2 : WebsocketHandle)
    (p : PubSub) (w : World) (c : PubSubClient)
    (pre post : List (WebsocketHandle × PubSubClient))
    (hnew : hdl ∉ p.clients.map Prod.fst)
    (hclients : p.clients = pre ++ (hdl2, c) :: post)
    (hpre : hdl2 ∉ pre.map Prod.fst)
    (hstarted : c.started = true) :
    (∃ before after, p.clients = before ++ after ∧
      p.onConnectionOpen env ec hdl w =
        some ({ clients := before ++ (hdl, PubSubClient.opened hdl ec) :: after,
                requests := p.requests },
              { w.pinged hdl ec with events := w.events ++ [Event.connected] })) ∧
    (PubSubClient.opened hdl ec).started = true ∧
    (PubSubClient.opened hdl ec).listeners = [] ∧
    (PubSubClient.opened hdl ec).numListens = 0 ∧
    p.onConnectionClose env hdl2 w =
      some ({ clients := pre ++ post, requests := p.requests }, w.invoke Event.connected) ∧
    (∀ topic, (∀ e ∈ pre ++ post, e.2.isListeningToTopic topic = false) →
      PubSub.isListeningToTopic { clients := pre ++ post, requests := p.requests } topic =
        false) := by
  refine ⟨?_, rfl, rfl, rfl, ?_, ?_⟩
  · obtain ⟨before, after, hsplit, hem⟩ :=
      mapEmplace_new hdl (PubSubClient.opened hdl ec) p.clients hnew
    exact ⟨before, after, hsplit, by rw [onConnectionOpen_eq, hem]⟩
  · have hf := mapFindClient_append hdl2 c pre post hpre
    have he := mapErase_append hdl2 c pre post hpre
    simp [PubSub.onConnectionClose, hclients, hf, he, assert, PubSubClient.stop, hstarted]
  · intro topic hall
    rw [Bool.eq_false_iff]
    intro hl
    obtain ⟨e, he, l, hl1, hl2⟩ := (pool_isListeningToTopicLoop_iff topic (pre ++ post)).1 hl
    have hf := hall e he
    rw [Bool.eq_false_iff] at hf
    exact hf ((isListeningToTopicLoop_iff topic e.2.listeners).2 ⟨l, hl1, hl2⟩)


/-- The lifecycle on a pool with one client under handle 1: handle 2 is opened,
handle 1 is closed. -/
theorem connection_lifecycle_witness :
    (∃ before after, [(1, (PubSubClient.opened 1 false).accepted ["whispers.9"])] =
        before ++ after ∧
      PubSub.onConnectionOpen sampleEnv false 2
          { clients := [(1, (PubSubClient.opened 1 false).accepted ["whispers.9"])],
            requests := [] } World.empty =
        some ({ clients := before ++ (2, PubSubClient.opened 2 false) :: after,
                requests := [] },
              { World.empty.pinged 2 false with
                events := World.empty.events ++ [Event.connected] })) ∧
    (PubSubClient.opened 2 false).started = true ∧
    (PubSubClient.opened 2 false).listeners = [] ∧
    (PubSubClient.opened 2 false).numListens = 0 ∧
    PubSub.onConnectionClose sampleEnv 1
        { clients := [(1, (PubSubClient.opened 1 false).accepted ["whispers.9"])],
          requests := [] } World.empty =
      some ({ clients := [] ++ [], requests := [] }, World.empty.invoke Event.connected) ∧
    (∀ topic, (∀ e ∈ ([] : List (WebsocketHandle × PubSubClient)) ++ [],
        e.2.isListeningToTopic topic = false) →
      PubSub.isListeningToTopic { clients := [] ++ [], requests := [] } topic = false) :=
  connection_lifecycle sampleEnv false 2 1
    { clients := [(1, (PubSubClient.opened 1 false).accepted ["whispers.9"])],
      requests := [] }
    World.empty ((PubSubClient.opened 1 false).accepted ["whispers.9"]) [] []
    (by decide) rfl (by decide) rfl

/-- C25 (nonce correlation), evaluated on the code: a client with the listener
`chat_moderator_actions.1.2` runs `unlistenPrefix("chat_moderator_actions.")` while
`CreateUUID()` returns `u2` and then `u3`. The payload is stored under the key `u2`,
and its `nonce` member is `u3`: the method calls `CreateUUID()` a second time for
the nonce instead of using `uuid`. The request that `listen` stores under `u1`
carries the nonce `u1`. -/
theorem unlistenPrefix_nonce_mismatch :
    (({ PubSubClient.new 7 with
          listeners := [Listener.ofTopic "chat_moderator_actions.1.2"],
          numListens := 1 }).unlistenPrefix sampleEnv "u2" "u3" false World.empty
        "chat_moderator_actions.").map
      (fun (s : PubSubClient × World) => s.2.sentMessages.map
        fun (kv : String × String) =>
          (kv.1, (sampleEnv.parse kv.2).bind fun doc => rj.getSafe doc "nonce")) =
      some [("u2", some "u3")] ∧
    ((PubSubClient.new 7).listen sampleEnv "u1" false World.empty
        (createListenMessage ["chat_moderator_actions.1.2"] "tok")).map
      (fun r => r.world.sentMessages.map
        fun (kv : String × String) =>
          (kv.1, (sampleEnv.parse kv.2).bind fun doc => rj.getSafe doc "nonce")) =
      some [("u1", some "u1")] :=
  ⟨rfl, rfl⟩

/-- C27 as stated fails: a client is started, gets its pong, and when the 5 minute
timer fires the transport refuses the PING. The client is still started and a second
PING was handed to the transport, but the only timers ever armed are the two of
`start`: this `ping` armed none, so no further PING follows. -/
theorem ping_stops_after_failed_send :
    (((PubSubClient.new 7).start sampleEnv false World.empty).bind fun s =>
      (s.1.handlePong sampleEnv).bind fun c =>
        (c.fire sampleEnv true .pingAgain s.2).map fun t =>
          (t.1.started, t.2.sent.length, t.2.timers)) =
      some (true, 2, [Timer.mk 7 15 .pongCheck, Timer.mk 7 300 .pingAgain]) := by
  decide

/-- C27, amended (heartbeat recurrence): on a started client, a `ping` whose frame
the transport accepts sets `awaitingPong` and arms the 15 second timer and the
5 minute timer; a `ping` whose send fails returns with the client unchanged and no
timer armed; and the 5 minute callback of a started client is `ping`. So the cycle
recurs as long as the client is started and every PING is accepted. -/
theorem ping_rearms_after_send (env : Env) (c : PubSubClient) (w : World)
    (hs : c.started = true) :
    c.ping env false w =
      some ({ c with awaitingPong := true },
            { w with sent := w.sent ++ [(c.handle, pingPayload)],
                     timers := w.timers ++ [Timer.mk c.handle 15 .pongCheck,
                                            Timer.mk c.handle 300 .pingAgain] }) ∧
    c.ping env true w = some (c, { w with sent := w.sent ++ [(c.handle, pingPayload)] }) ∧
    (∀ ec, c.fire env ec .pingAgain w = c.ping env ec w) := by
  refine ⟨?_, ?_, ?_⟩
  · simp [PubSubClient.ping, PubSubClient.send, assert, hs]
  · simp [PubSubClient.ping, PubSubClient.send, assert, hs]
  · intro ec
    simp [PubSubClient.fire, PubSubClient.pingAgainCallback, hs]


/-- The recurrence on an opened client. -/
theorem ping_rearms_after_send_witness :
    (PubSubClient.opened 7 false).ping sampleEnv false World.empty =
      some ({ PubSubClient.opened 7 false with awaitingPong := true },
            { World.empty with
              sent := World.empty.sent ++ [(7, pingPayload)],
              timers := World.empty.timers ++ [Timer.mk 7 15 .pongCheck,
                                               Timer.mk 7 300 .pingAgain] }) :=
  (ping_rearms_after_send sampleEnv (PubSubClient.opened 7 false) World.empty rfl).1

/-- C28 as stated fails: `ban` with three args, `timeout` with four, `mod` and
`unban` with two each publish their event; the surplus element is ignored. -/
theorem extra_args_publish :
    (PubSub.handlers.ban sampleEnv
        (.obj [("moderation_action", .str "ban"),
               ("args", .arr [.str "baduser", .str "spam", .str "extra"])])
        "2" World.empty).map (fun w => w.events) =
      some [.userBanned { roomID := "2", target := { name := "baduser" },
                          reason := "spam" }] ∧
    (PubSub.handlers.timeout sampleEnv
        (.obj [("moderation_action", .str "timeout"),
               ("args", .arr [.str "baduser", .str "600", .str "spam", .str "extra"])])
        "2" World.empty).map (fun w => w.events) =
      some [.userBanned { roomID := "2", target := { name := "baduser" },
                          reason := "spam", duration := some 600 }] ∧
    (PubSub.handlers.mod sampleEnv
        (.obj [("moderation_action", .str "mod"),
               ("args", .arr [.str "gooduser", .str "extra"])])
        "2" World.empty).map (fun w => w.events) =
      some [.moderationStateChanged { roomID := "2", target := { name := "gooduser" },
                                      modded := true }] ∧
    (PubSub.handlers.unban sampleEnv
        (.obj [("moderation_action", .str "unban"),
               ("args", .arr [.str "baduser", .str "extra"])])
        "2" World.empty).map (fun w => w.events) =
      some [.userUnbanned { roomID := "2", target := { name := "baduser" },
                            previousState := .Banned }] :=
  ⟨rfl, rfl, rfl, rfl⟩


/-- C28, amended (argument counts are lower bounds): the handlers read `args[0]`
(and `args[1]`, `args[2]` for `ban` and `timeout`) and ignore every further element:
`ban` with two strings, `timeout` with three strings and `mod`, `unmod`, `unban`,
`untimeout` with one string publish the same event whatever follows in `args`. An
empty `args` publishes nothing in any of the six, and neither does `timeout` with a
single element. -/
theorem args_lower_bounds (env : Env) (data : Json) (roomID : String) (w : World) :
    (∀ name reason more, getArgs data = some (.str name :: .str reason :: more) →
      PubSub.handlers.ban env data roomID w =
        some (w.invoke (bannedEvent env data roomID name reason none))) ∧
    (∀ name duration reason more,
      getArgs data = some (.str name :: .str duration :: .str reason :: more) →
      PubSub.handlers.timeout env data roomID w =
        some (w.invoke
          (bannedEvent env data roomID name reason (some (env.toUInt duration))))) ∧
    (∀ name more, getArgs data = some (.str name :: more) →
      PubSub.handlers.mod env data roomID w =
        some (w.invoke (moddedEvent env data roomID name true)) ∧
      PubSub.handlers.unmod env data roomID w =
        some (w.invoke (moddedEvent env data roomID name false)) ∧
      PubSub.handlers.unban env data roomID w =
        some (w.invoke (unbannedEvent env data roomID name .Banned)) ∧
      PubSub.handlers.untimeout env data roomID w =
        some (w.invoke (unbannedEvent env data roomID name .TimedOut))) ∧
    (getArgs data = some [] →
      PubSub.handlers.ban env data roomID w = some w ∧
      PubSub.handlers.timeout env data roomID w = some w ∧
      PubSub.handlers.mod env data roomID w = some w ∧
      PubSub.handlers.unmod env data roomID w = some w ∧
      PubSub.handlers.unban env data roomID w = some w ∧
      PubSub.handlers.untimeout env data roomID w = some w) ∧
    (∀ a, getArgs data = some [a] → PubSub.handlers.timeout env data roomID w = some w) := by
  refine ⟨?_, ?_, ?_, ?_, ?_⟩
  · intro name reason more h
    simp [PubSub.handlers.ban, h, rj.getSafeValue, Json.getString?, bannedEvent]
  · intro name duration reason more h
    simp [PubSub.handlers.timeout, h, rj.getSafeValue, Json.getString?, bannedEvent]
  · intro name more h
    simp [PubSub.handlers.mod, PubSub.handlers.unmod, PubSub.handlers.unban,
      PubSub.handlers.untimeout, h, rj.getSafeValue, Json.getString?, moddedEvent,
      unbannedEvent]
  · intro h
    simp [PubSub.handlers.mod, PubSub.handlers.unmod, PubSub.handlers.unban,
      PubSub.handlers.untimeout, PubSub.handlers.ban, PubSub.handlers.timeout, h]
  · intro a h
    simp [PubSub.handlers.timeout, h]


/-- C29 (`listen` ignores the send result): for a request with the topics `names`
and `numListens + N <= MAX_PUBSUB_LISTENS`, `listen` returns `true` with the
listeners added, `numListens` raised and the payload stored in `sentMessages`
whether the transport reports an error or not: the two outcomes are equal, although
`send` returns `false` in the one and `true` in the other. -/
theorem listen_ignores_send (env : Env) (uuid : String) (c : PubSubClient) (w : World)
    (message : Json) (names : List String)
    (h : requestTopics message = some names)
    (hcap : c.numListens + names.length ≤ env.MAX_PUBSUB_LISTENS) :
    (∀ ec, ∃ message1, rj.set message "nonce" (.str uuid) = some message1 ∧
      c.listen env uuid ec w message =
        some { ok := true, client := c.accepted names,
               world := w.recorded c.handle uuid (env.stringify message1),
               message := message1 }) ∧
    c.listen env uuid true w message = c.listen env uuid false w message ∧
    (∀ payload, (c.send w payload true).1 = false ∧ (c.send w payload false).1 = true) := by
  have hcap2 : ¬ c.numListens + names.length > env.MAX_PUBSUB_LISTENS := by omega
  have key : ∀ ec, ∃ message1, rj.set message "nonce" (.str uuid) = some message1 ∧
      c.listen env uuid ec w message =
        some { ok := true, client := c.accepted names,
               world := w.recorded c.handle uuid (env.stringify message1),
               message := message1 } := by
    intro ec
    obtain ⟨message1, hset, hl⟩ := listen_of_requestTopics env uuid ec c w message names h
    rw [if_neg hcap2] at hl
    exact ⟨message1, hset, hl⟩
  refine ⟨key, ?_, ?_⟩
  · obtain ⟨m1, hs1, h1⟩ := key true
    obtain ⟨m2, hs2, h2⟩ := key false
    rw [hs1] at hs2
    cases hs2
    rw [h1, h2]
  · intro payload
    simp [PubSubClient.send]


/-- The accepted request on a transport that fails and on one that does not. -/
theorem listen_ignores_send_witness :
    (PubSubClient.new 7).listen sampleEnv "u1" true World.empty
        (createListenMessage ["whispers.9"] "tok") =
      (PubSubClient.new 7).listen sampleEnv "u1" false World.empty
        (createListenMessage ["whispers.9"] "tok") :=
  (listen_ignores_send sampleEnv "u1" (PubSubClient.new 7) World.empty
    (createListenMessage ["whispers.9"] "tok") ["whispers.9"] rfl (by decide)).2.1

/-- C30 (moderation-topic de-duplication): for a non-empty channel and user,
`listenToChannelModerationActions` changes nothing when some client has a listener
for `chat_moderator_actions.<userID>.<channelID>`, and is otherwise `PubSub::listen`
of the request for that one topic. The pending queue is not looked at: two calls
with the same arguments, while no client listens to the topic and none can take one
more, leave the request in the queue twice. -/
theorem moderation_dedup (env : Env) (uuid uuid2 : String) (ec ec2 : Bool)
    (channelID : String) (acc : PubSub.TwitchAccount) (p : PubSub) (w : World)
    (hch : channelID.isEmpty = false) (hu : acc.userId.isEmpty = false) :
    (p.isListeningToTopic ("chat_moderator_actions." ++ acc.userId ++ "." ++ channelID) = true →
      p.listenToChannelModerationActions env uuid ec channelID (some acc) w = some (p, w)) ∧
    (p.isListeningToTopic ("chat_moderator_actions." ++ acc.userId ++ "." ++ channelID) = false →
      p.listenToChannelModerationActions env uuid ec channelID (some acc) w =
        p.listen env uuid ec w
          (createListenMessage ["chat_moderator_actions." ++ acc.userId ++ "." ++ channelID]
            acc.oauthToken)) ∧
    (p.isListeningToTopic ("chat_moderator_actions." ++ acc.userId ++ "." ++ channelID) = false →
      (∀ e ∈ p.clients, e.2.numListens + 1 > env.MAX_PUBSUB_LISTENS) →
      (p.listenToChannelModerationActions env uuid ec channelID (some acc) w).bind
          (fun s => s.1.listenToChannelModerationActions env uuid2 ec2 channelID (some acc)
            s.2) =
        some ({ clients := p.clients,
                requests := p.requests ++
                  [createListenMessage
                    ["chat_moderator_actions." ++ acc.userId ++ "." ++ channelID]
                    acc.oauthToken,
                   createListenMessage
                    ["chat_moderator_actions." ++ acc.userId ++ "." ++ channelID]
                    acc.oauthToken] }, w)) := by
  have hgen : ∀ (q : PubSub) (u : String) (e : Bool) (v : World),
      q.listenToChannelModerationActions env u e channelID (some acc) v =
        if q.isListeningToTopic ("chat_moderator_actions." ++ acc.userId ++ "." ++ channelID)
        then some (q, v)
        else q.listen env u e v
          (createListenMessage ["chat_moderator_actions." ++ acc.userId ++ "." ++ channelID]
            acc.oauthToken) := by
    intro q u e v
    simp [PubSub.listenToChannelModerationActions, assert, hch, hu, PubSub.listenToTopic]
  have htopics : ∀ t tok, requestTopics (createListenMessage [t] tok) = some [t] := by
    intro t tok
    simp [requestTopics, createListenMessage, Json.member?, Json.findMember, Json.getArray?,
      topicStrings, Json.getString?]
  refine ⟨?_, ?_, ?_⟩
  · intro h
    rw [hgen, if_pos h]
  · intro h
    rw [hgen]
    simp [h]
  · intro h hfull
    have hq : ∀ (q : List Json) (u : String) (e : Bool),
        PubSub.listen env u e { clients := p.clients, requests := q } w
          (createListenMessage ["chat_moderator_actions." ++ acc.userId ++ "." ++ channelID]
            acc.oauthToken) =
          some ({ clients := p.clients, requests := q ++
            [createListenMessage
              ["chat_moderator_actions." ++ acc.userId ++ "." ++ channelID]
              acc.oauthToken] }, w) := by
      intro q u e
      simp [PubSub.listen, PubSub.tryListen,
        tryListenLoop_all_full env u e p.clients w _ _ (htopics _ _) hfull]
    have h1 := hq p.requests uuid ec
    rw [hgen]
    simp only [h, Bool.false_eq_true, if_false]
    rw [show p = { clients := p.clients, requests := p.requests } from rfl, h1]
    simp only [Option.some_bind]
    rw [hgen]
    have h2 : PubSub.isListeningToTopic
        { clients := p.clients, requests := p.requests ++
          [createListenMessage
            ["chat_moderator_actions." ++ acc.userId ++ "." ++ channelID]
            acc.oauthToken] }
        ("chat_moderator_actions." ++ acc.userId ++ "." ++ channelID) = false := h
    simp only [h2, Bool.false_eq_true, if_false]
    rw [hq]
    simp


/-- The de-duplication on a pool whose only client is full: two calls queue the
request twice. -/
theorem moderation_dedup_witness :
    ((PubSub.listenToChannelModerationActions smallEnv "u1" false "2"
        (some { userId := "1", oauthToken := "tok" })
        { clients := [(1, { PubSubClient.new 1 with numListens := 2 })], requests := [] }
        World.empty).bind fun s =>
      (s.1.listenToChannelModerationActions smallEnv "u2" false "2"
        (some { userId := "1", oauthToken := "tok" }) s.2)) =
      some ({ clients := [(1, { PubSubClient.new 1 with numListens := 2 })],
              requests := [] ++
                [createListenMessage ["chat_moderator_actions." ++ "1" ++ "." ++ "2"] "tok",
                 createListenMessage ["chat_moderator_actions." ++ "1" ++ "." ++ "2"] "tok"] },
            World.empty) :=
  (moderation_dedup smallEnv "u1" "u2" false false "2" { userId := "1", oauthToken := "tok" }
    { clients := [(1, { PubSubClient.new 1 with numListens := 2 })], requests := [] }
    World.empty rfl rfl).2.2 rfl (by decide)

end chatterino
